import Mathlib

/-
Verification of the operand-location representation of
runtime/vm/compiler/backend/locations.h (Dart VM compiler backend),
shallowly embedded for a 64-bit target word
(ARCH_IS_64_BIT: kBitsPerWord = 64, kBitsForBaseReg = 6).

Machine words are modelled as Nat; every constructed encoding stays below
2 ^ 64, and the two's-complement bit operations of the source are modelled
with explicit masks.  Assertion (ASSERT / precondition) failures are
modelled by Option-valued operations returning none.
-/

set_option maxRecDepth 8000

namespace Dart

/-! Target configuration: 64-bit word. -/

def kBitsPerWord : Nat := 64

def kWordSize : Nat := 8

def kBitsPerByte : Nat := 8

/-! Bit layout of a Location word (locations.h, lines 84-94). -/

def kKindBitsPos : Nat := 0

def kKindBitsSize : Nat := 5

def kPayloadBitsPos : Nat := kKindBitsPos + kKindBitsSize

def kPayloadBitsSize : Nat := kBitsPerWord - kPayloadBitsPos

def kInvalidLocation : Nat := 0

def kLocationTagMask : Nat := 0x3

/-! Kind codes (locations.h, lines 103-132). -/

def kInvalid : Nat := 0

def kConstantTag : Nat := 1

def kPairLocationTag : Nat := 2

def kUnallocated : Nat := 3

def kStackSlot : Nat := 4

def kDoubleStackSlot : Nat := 7

def kQuadStackSlot : Nat := 11

def kRegister : Nat := 8

def kFpuRegister : Nat := 12

/-! Allocation policies (locations.h, lines 209-216). -/

def kAny : Nat := 0

def kPrefersRegister : Nat := 1

def kRequiresRegister : Nat := 2

def kRequiresFpuRegister : Nat := 3

def kWritableRegister : Nat := 4

def kSameAsFirstInput : Nat := 5

/-! Representations (locations.h, lines 25-39); only the codes matter here. -/

def kNoRepresentation : Nat := 0

def kTagged : Nat := 1

def kUntagged : Nat := 2

def kUnboxedDouble : Nat := 3

def kUnboxedInt64 : Nat := 7

/-! Stack-slot payload layout (locations.h, lines 407-422), 64-bit target. -/

def kBitsForBaseReg : Nat := 6

def kBitsForStackIndex : Nat := kPayloadBitsSize - kBitsForBaseReg

def kStackIndexBias : Int := (2 : Int) ^ (kBitsForStackIndex - 1)

/-- Bitwise complement of a 64-bit word: the source's `~m` on uword. -/
def not64 (m : Nat) : Nat := (2 ^ 64 - 1) ^^^ m

/-! BitField (vm/bitfield.h): a field of `size` bits at `position` inside a
64-bit word, with encode / decode / mask_in_place / update exactly as the
template defines them. -/

def bitFieldEncode (pos v : Nat) : Nat := v <<< pos

def bitFieldDecode (pos size w : Nat) : Nat := (w >>> pos) &&& (2 ^ size - 1)

def bitFieldMaskInPlace (pos size : Nat) : Nat := (2 ^ size - 1) <<< pos

def bitFieldUpdate (pos size v orig : Nat) : Nat :=
  bitFieldEncode pos v ||| (orig &&& not64 (bitFieldMaskInPlace pos size))

def KindField.encode (k : Nat) : Nat := bitFieldEncode kKindBitsPos k

def KindField.decode (w : Nat) : Nat := bitFieldDecode kKindBitsPos kKindBitsSize w

def PayloadField.encode (p : Nat) : Nat := bitFieldEncode kPayloadBitsPos p

def PayloadField.decode (w : Nat) : Nat :=
  bitFieldDecode kPayloadBitsPos kPayloadBitsSize w

def PayloadField.update (p orig : Nat) : Nat :=
  bitFieldUpdate kPayloadBitsPos kPayloadBitsSize p orig

def PolicyField.encode (p : Nat) : Nat := bitFieldEncode 0 p

def PolicyField.decode (w : Nat) : Nat := bitFieldDecode 0 3 w

def StackSlotBaseField.encode (r : Nat) : Nat := bitFieldEncode 0 r

def StackSlotBaseField.decode (w : Nat) : Nat := bitFieldDecode 0 kBitsForBaseReg w

def StackSlotBaseField.update (r orig : Nat) : Nat :=
  bitFieldUpdate 0 kBitsForBaseReg r orig

def StackIndexField.encode (i : Nat) : Nat := bitFieldEncode kBitsForBaseReg i

def StackIndexField.decode (w : Nat) : Nat :=
  bitFieldDecode kBitsForBaseReg kBitsForStackIndex w

def StackIndexField.update (i orig : Nat) : Nat :=
  bitFieldUpdate kBitsForBaseReg kBitsForStackIndex i orig

/-- Location: a single packed word (TemplateLocation, locations.h line 82),
instantiated for the 64-bit target (the repo's `Location` alias). -/
structure Location where
  value : Nat
deriving DecidableEq, Repr

/-- Private constructor TemplateLocation(Kind, uword payload), line 392. -/
def Location.ofKindPayload (kind payload : Nat) : Location :=
  ⟨KindField.encode kind ||| PayloadField.encode payload⟩

def Location.kind (l : Location) : Nat := KindField.decode l.value

def Location.payload (l : Location) : Nat := PayloadField.decode l.value

def Location.IsInvalid (l : Location) : Bool := l.value == kInvalidLocation

def Location.IsConstant (l : Location) : Bool :=
  l.value &&& kLocationTagMask == kConstantTag

def Location.IsPairLocation (l : Location) : Bool :=
  l.value &&& kLocationTagMask == kPairLocationTag

def Location.IsUnallocated (l : Location) : Bool := l.kind == kUnallocated

def Location.IsRegister (l : Location) : Bool := l.kind == kRegister

def Location.IsFpuRegister (l : Location) : Bool := l.kind == kFpuRegister

def Location.IsStackSlot (l : Location) : Bool := l.kind == kStackSlot

def Location.IsDoubleStackSlot (l : Location) : Bool := l.kind == kDoubleStackSlot

def Location.IsQuadStackSlot (l : Location) : Bool := l.kind == kQuadStackSlot

def Location.HasStackIndex (l : Location) : Bool :=
  l.IsStackSlot || l.IsDoubleStackSlot || l.IsQuadStackSlot

def IsMachineRegisterKind (k : Nat) : Bool := k == kRegister || k == kFpuRegister

def Location.IsMachineRegister (l : Location) : Bool := IsMachineRegisterKind l.kind

/-- Compare two locations (line 366): exact raw word equality. -/
def Location.Equals (a b : Location) : Bool := a.value == b.value

def Location.reg (l : Location) : Nat := l.payload

def Location.fpu_reg (l : Location) : Nat := l.payload

def Location.register_code (l : Location) : Nat := l.payload

def Location.policy (l : Location) : Nat := PolicyField.decode l.payload

def Location.base_reg (l : Location) : Nat := StackSlotBaseField.decode l.payload

def Location.stack_index (l : Location) : Int :=
  (StackIndexField.decode l.payload : Int) - kStackIndexBias

/-- Default constructor / NoLocation (lines 134, 252): the invalid location. -/
def Location.NoLocation : Location := ⟨kInvalidLocation⟩

def Location.UnallocatedLocation (policy : Nat) : Location :=
  Location.ofKindPayload kUnallocated (PolicyField.encode policy)

def Location.Any : Location := Location.UnallocatedLocation kAny

def Location.RequiresRegister : Location :=
  Location.UnallocatedLocation kRequiresRegister

def Location.RegisterLocation (r : Nat) : Location :=
  Location.ofKindPayload kRegister r

def Location.FpuRegisterLocation (r : Nat) : Location :=
  Location.ofKindPayload kFpuRegister r

/-- Constant location (line 181): the tagged address of a ConstantInstr node,
modelled as the Nat address of that node. -/
def Location.Constant (ref : Nat) : Location := ⟨ref ||| kConstantTag⟩

def Location.constant_instruction (l : Location) : Nat :=
  l.value &&& not64 kLocationTagMask

/-- EncodeStackIndex (line 303): the ASSERT on the representable range is
modelled as an Option; in range the biased unsigned payload is returned. -/
def Location.EncodeStackIndex (stack_index : Int) : Option Nat :=
  if -kStackIndexBias ≤ stack_index ∧ stack_index < kStackIndexBias then
    some (kStackIndexBias + stack_index).toNat
  else none

def Location.StackSlot (stack_index : Int) (base : Nat) : Option Location :=
  (Location.EncodeStackIndex stack_index).map fun enc =>
    Location.ofKindPayload kStackSlot
      (StackSlotBaseField.encode base ||| StackIndexField.encode enc)

def Location.DoubleStackSlot (stack_index : Int) (base : Nat) : Option Location :=
  (Location.EncodeStackIndex stack_index).map fun enc =>
    Location.ofKindPayload kDoubleStackSlot
      (StackSlotBaseField.encode base ||| StackIndexField.encode enc)

def Location.QuadStackSlot (stack_index : Int) (base : Nat) : Option Location :=
  (Location.EncodeStackIndex stack_index).map fun enc =>
    Location.ofKindPayload kQuadStackSlot
      (StackSlotBaseField.encode base ||| StackIndexField.encode enc)

/-- set_stack_index (line 380): rewrites the stack-index field in place;
the range ASSERT inside EncodeStackIndex is modelled by the Option. -/
def Location.set_stack_index (l : Location) (index : Int) : Option Location :=
  (Location.EncodeStackIndex index).map fun enc =>
    ⟨PayloadField.update (StackIndexField.update enc l.payload) l.value⟩

/-- set_base_reg (line 386): rewrites the base-register field in place; the
BitField validity assertion on the register code is modelled by the Option. -/
def Location.set_base_reg (l : Location) (r : Nat) : Option Location :=
  if r < 2 ^ kBitsForBaseReg then
    some ⟨PayloadField.update (StackSlotBaseField.update r l.payload) l.value⟩
  else none

def kPairLength : Nat := 2

/-- PairLocation (TemplatePairLocation, line 464): a fixed two-element array
of Locations, loc0 and loc1 being locations_[0] and locations_[1]. -/
structure PairLocation where
  loc0 : Location
  loc1 : Location
deriving DecidableEq, Repr

/-- Default constructor (line 466): both array slots default-initialize to
the invalid location (the ASSERT in the constructor checks exactly this). -/
def PairLocation.init : PairLocation := ⟨Location.NoLocation, Location.NoLocation⟩

def PairLocation.length (_ : PairLocation) : Nat := kPairLength

/-- At (line 474): bounds-checked read; the two index ASSERTs are the Option. -/
def PairLocation.At (p : PairLocation) (i : Int) : Option Location :=
  if 0 ≤ i ∧ i < (kPairLength : Int) then
    some (if i = 0 then p.loc0 else p.loc1)
  else none

/-- SetAt (line 480): bounds-checked write. -/
def PairLocation.SetAt (p : PairLocation) (i : Int) (loc : Location) :
    Option PairLocation :=
  if 0 ≤ i ∧ i < (kPairLength : Int) then
    some (if i = 0 then { p with loc0 := loc } else { p with loc1 := loc })
  else none

/-- Zone: the allocation arena owning every PairLocation of a compilation
unit.  Modelled from the spec: PairLocation is arena-allocated ("owned by
the allocation arena of the compilation unit") and referenced from a
Location by its tagged address; the model gives the i-th allocation the
word-aligned nonzero address 8 * (i + 1). -/
structure Zone where
  pairs : List PairLocation
deriving DecidableEq, Repr

def pairAddress (i : Nat) : Nat := kWordSize * (i + 1)

/-- Pair (declared line 198, body in locations.cc).  Modelled from the spec:
allocates a fresh PairLocation (both slots initially invalid), stores the
two components at indices 0 and 1, and returns a Location holding the
arena address tagged with kPairLocationTag. -/
def Location.Pair (z : Zone) (first second : Location) : Zone × Location :=
  let addr := pairAddress z.pairs.length
  let p : PairLocation := { PairLocation.init with loc0 := first, loc1 := second }
  (⟨z.pairs ++ [p]⟩, ⟨addr ||| kPairLocationTag⟩)

/-- AsPairLocation (declared line 200, body in locations.cc).  Modelled from
the spec: a pair-reference Location holds a tagged pointer to a
PairLocation; stripping the tag bits recovers the arena address, and the
dereference fails (none) on a non-pair Location or a dead address. -/
def Location.AsPairLocation (z : Zone) (l : Location) : Option PairLocation :=
  if l.IsPairLocation then
    z.pairs.get? ((l.value &&& not64 kLocationTagMask) / kWordSize - 1)
  else none

/-- Component (line 204): AsPairLocation()->At(i). -/
def Location.Component (z : Zone) (l : Location) (i : Int) : Option Location :=
  (l.AsPairLocation z).bind fun p => p.At i

/-! SmallSet (lines 500-524): a bitmask set over a small register domain.
data_ is an intptr_t used purely as a 64-bit mask, modelled as a Nat. -/

def SmallSet.ToMask (v : Nat) : Nat := 1 <<< v

structure SmallSet where
  data : Nat
deriving DecidableEq, Repr

def SmallSet.empty : SmallSet := ⟨0⟩

def SmallSet.Contains (s : SmallSet) (v : Nat) : Bool :=
  s.data &&& SmallSet.ToMask v != 0

def SmallSet.Add (s : SmallSet) (v : Nat) : SmallSet :=
  ⟨s.data ||| SmallSet.ToMask v⟩

def SmallSet.Remove (s : SmallSet) (v : Nat) : SmallSet :=
  ⟨s.data &&& not64 (SmallSet.ToMask v)⟩

def SmallSet.IsEmpty (s : SmallSet) : Bool := s.data == 0

/-! RegisterSet (lines 526-661). -/

structure RegisterSet where
  cpu_registers : SmallSet
  untagged_cpu_registers : SmallSet
  fpu_registers : SmallSet
deriving DecidableEq, Repr

/-- RegisterSet constructor (line 528): all three masks empty. -/
def RegisterSet.new : RegisterSet := ⟨SmallSet.empty, SmallSet.empty, SmallSet.empty⟩

/-- MarkUntagged (line 623). -/
def RegisterSet.MarkUntagged (rs : RegisterSet) (loc : Location) : RegisterSet :=
  { rs with untagged_cpu_registers := rs.untagged_cpu_registers.Add loc.reg }

/-- Add (line 590): marks a cpu or fpu register used; a cpu register added
with a representation other than kTagged is also marked untagged; any
other location kind is ignored. -/
def RegisterSet.Add (rs : RegisterSet) (loc : Location) (rep : Nat) : RegisterSet :=
  if loc.IsRegister then
    let rs' := { rs with cpu_registers := rs.cpu_registers.Add loc.reg }
    if rep != kTagged then rs'.MarkUntagged loc else rs'
  else if loc.IsFpuRegister then
    { rs with fpu_registers := rs.fpu_registers.Add loc.fpu_reg }
  else rs

/-- Remove (line 602): clears the used bit of a cpu or fpu register; any
other location kind is ignored. -/
def RegisterSet.Remove (rs : RegisterSet) (loc : Location) : RegisterSet :=
  if loc.IsRegister then
    { rs with cpu_registers := rs.cpu_registers.Remove loc.reg }
  else if loc.IsFpuRegister then
    { rs with fpu_registers := rs.fpu_registers.Remove loc.fpu_reg }
  else rs

def RegisterSet.ContainsRegister (rs : RegisterSet) (r : Nat) : Bool :=
  rs.cpu_registers.Contains r

def RegisterSet.ContainsFpuRegister (rs : RegisterSet) (r : Nat) : Bool :=
  rs.fpu_registers.Contains r

/-- Contains (line 610): membership for register / fpu-register locations;
the UNREACHABLE() branch for every other kind is modelled as none. -/
def RegisterSet.Contains (rs : RegisterSet) (loc : Location) : Option Bool :=
  if loc.IsRegister then some (rs.ContainsRegister loc.reg)
  else if loc.IsFpuRegister then some (rs.ContainsFpuRegister loc.fpu_reg)
  else none

/-- HasUntaggedValues (line 628). -/
def RegisterSet.HasUntaggedValues (rs : RegisterSet) : Bool :=
  !rs.untagged_cpu_registers.IsEmpty || !rs.fpu_registers.IsEmpty

def RegisterSet.IsTagged (rs : RegisterSet) (r : Nat) : Bool :=
  !rs.untagged_cpu_registers.Contains r

/-! LocationSummary (lines 663-805). -/

inductive ContainsCall where
  | kNoCall
  | kCall
  | kCallCalleeSafe
  | kCallOnSlowPath
  | kCallOnSharedSlowPath
deriving DecidableEq, Repr

structure LocationSummary where
  num_inputs : Nat
  input_locations : List Location
  num_temps : Nat
  temp_locations : List Location
  output_location : Location
  contains_call : ContainsCall
deriving DecidableEq, Repr

/-- always_calls (line 760). -/
def LocationSummary.always_calls (s : LocationSummary) : Bool :=
  s.contains_call == ContainsCall.kCall ||
    s.contains_call == ContainsCall.kCallCalleeSafe

def LocationSummary.can_call (s : LocationSummary) : Bool :=
  s.contains_call != ContainsCall.kNoCall

/-- set_in (line 694).  The index ASSERTs and the call-mode legality ASSERTs
are the Option.  When the location is a pair reference, the source tests
loc.AsPairLocation()->At(0) in both component ASSERTs (lines 703-706); the
model reproduces those two checks literally. -/
def LocationSummary.set_in (z : Zone) (s : LocationSummary) (index : Int)
    (loc : Location) : Option LocationSummary :=
  if 0 ≤ index ∧ index < (s.num_inputs : Int) then
    let write := some { s with
      input_locations := s.input_locations.set index.toNat loc }
    if s.always_calls then
      if loc.IsUnallocated then
        if loc.policy == kAny then write else none
      else if loc.IsPairLocation then
        match loc.Component z 0 with
        | none => none
        | some c0 =>
          if (!c0.IsUnallocated || c0.policy == kAny) &&
             (!c0.IsUnallocated || c0.policy == kAny) then write else none
      else write
    else write
  else none

/-- set_temp (line 726). -/
def LocationSummary.set_temp (s : LocationSummary) (index : Int)
    (loc : Location) : Option LocationSummary :=
  if 0 ≤ index ∧ index < (s.num_temps : Int) then
    if !s.always_calls || loc.IsMachineRegister then
      some { s with temp_locations := s.temp_locations.set index.toNat loc }
    else none
  else none

/-- set_out (line 745). -/
def LocationSummary.set_out (s : LocationSummary) (index : Int)
    (loc : Location) : Option LocationSummary :=
  if index = 0 then
    if !s.always_calls ||
        (loc.IsMachineRegister || loc.IsInvalid || loc.IsPairLocation) then
      some { s with output_location := loc }
    else none
  else none

/-! FrameRebase (lines 813-835). -/

structure FrameRebase where
  old_base : Nat
  new_base : Nat
  stack_delta : Int
deriving DecidableEq, Repr

/-- Rebase (line 818), with an explicit recursion-depth fuel for the
recursive pair case (the source recurses through arbitrarily nested pair
references); none models either fuel exhaustion or an ASSERT failure
inside set_base_reg / set_stack_index / the pair dereference. -/
def FrameRebase.RebaseF : Nat → FrameRebase → Zone → Location →
    Option (Zone × Location)
  | 0, _, _, _ => none
  | fuel + 1, fr, z, loc =>
    if loc.IsPairLocation then
      match loc.Component z 0 with
      | none => none
      | some c0 =>
        match loc.Component z 1 with
        | none => none
        | some c1 =>
          match FrameRebase.RebaseF fuel fr z c0 with
          | none => none
          | some (z1, r0) =>
            match FrameRebase.RebaseF fuel fr z1 c1 with
            | none => none
            | some (z2, r1) => some (Location.Pair z2 r0 r1)
    else if !loc.HasStackIndex || loc.base_reg ≠ fr.old_base then
      some (z, loc)
    else
      match loc.set_base_reg fr.new_base with
      | none => none
      | some l1 =>
        match l1.set_stack_index (l1.stack_index + fr.stack_delta) with
        | none => none
        | some l2 => some (z, l2)

/-! Constructor descriptions: one value of LCtor names a public Location
constructor together with its arguments, for stating claims that quantify
over "every Location built by the public constructors". -/

inductive LCtor where
  | invalid
  | unallocated (policy : Nat)
  | reg (r : Nat)
  | fpuReg (r : Nat)
  | stackSlot (o : Int) (b : Nat)
  | doubleStackSlot (o : Int) (b : Nat)
  | quadStackSlot (o : Int) (b : Nat)
  | constant (ref : Nat)
  | pair (addr : Nat)
deriving DecidableEq, Repr

/-- buildLoc: runs the named public constructor on in-range arguments
(none on out-of-range ones).  Register codes are valid below
2 ^ kBitsForBaseReg = 64 (COMPILE_ASSERT line 419 together with the
kNumberOfCpuRegisters bound asserted at line 530); constant references are
4-byte-aligned node addresses; pair references are word-aligned nonzero
arena addresses as produced by Location.Pair. -/
def buildLoc : LCtor → Option Location
  | .invalid => some Location.NoLocation
  | .unallocated p =>
    if p < 6 then some (Location.UnallocatedLocation p) else none
  | .reg r => if r < 64 then some (Location.RegisterLocation r) else none
  | .fpuReg r => if r < 64 then some (Location.FpuRegisterLocation r) else none
  | .stackSlot o b => if b < 64 then Location.StackSlot o b else none
  | .doubleStackSlot o b => if b < 64 then Location.DoubleStackSlot o b else none
  | .quadStackSlot o b => if b < 64 then Location.QuadStackSlot o b else none
  | .constant ref =>
    if ref % 4 = 0 ∧ ref < 2 ^ 64 then some (Location.Constant ref) else none
  | .pair addr =>
    if addr % kWordSize = 0 ∧ 0 < addr ∧ addr < 2 ^ 64 then
      some ⟨addr ||| kPairLocationTag⟩
    else none

/-- decodeLCtor: recovers the constructor description from a raw encoding;
used to prove that buildLoc is injective. -/
def decodeLCtor (v : Nat) : Option LCtor :=
  if v % 4 = 1 then some (.constant (v - 1))
  else if v % 4 = 2 then some (.pair (v - 2))
  else if v = 0 then some .invalid
  else if v % 32 = 3 then some (.unallocated (v / 32 % 8))
  else if v % 32 = 8 then some (.reg (v / 32 % 2 ^ 59))
  else if v % 32 = 12 then some (.fpuReg (v / 32 % 2 ^ 59))
  else if v % 32 = 4 then
    some (.stackSlot ((v / 32 / 64 % 2 ^ 53 : Nat) - kStackIndexBias) (v / 32 % 64))
  else if v % 32 = 7 then
    some (.doubleStackSlot ((v / 32 / 64 % 2 ^ 53 : Nat) - kStackIndexBias) (v / 32 % 64))
  else if v % 32 = 11 then
    some (.quadStackSlot ((v / 32 / 64 % 2 ^ 53 : Nat) - kStackIndexBias) (v / 32 % 64))
  else none

/-! Bridge lemmas: the bitfield operations as plain arithmetic. -/

theorem or_shl_eq_add (a b n : Nat) (h : a < 2 ^ n) :
    a ||| b <<< n = a + 2 ^ n * b := by
  rw [Nat.shiftLeft_eq, Nat.mul_comm b (2 ^ n), Nat.or_comm,
    ← Nat.mul_add_lt_is_or h, Nat.add_comm]

theorem shl_or_eq_add (a b n : Nat) (h : a < 2 ^ n) :
    b <<< n ||| a = a + 2 ^ n * b := by
  rw [Nat.or_comm, or_shl_eq_add a b n h]

theorem bitFieldDecode_eq (pos size w : Nat) :
    bitFieldDecode pos size w = w / 2 ^ pos % 2 ^ size := by
  rw [bitFieldDecode, Nat.shiftRight_eq_div_pow, Nat.and_pow_two_sub_one_eq_mod]

theorem testBit_high_false {w i : Nat} (hw : w < 2 ^ 64) (hi : 64 ≤ i) :
    w.testBit i = false :=
  Nat.testBit_lt_two_pow
    (lt_of_lt_of_le hw (Nat.pow_le_pow_right (by norm_num) hi))

theorem and_not64_mask (w pos size : Nat) (hw : w < 2 ^ 64)
    (hps : pos + size ≤ 64) :
    w &&& not64 ((2 ^ size - 1) <<< pos) =
      w % 2 ^ pos + 2 ^ (pos + size) * (w / 2 ^ (pos + size)) := by
  apply Nat.eq_of_testBit_eq
  intro i
  have hb : w % 2 ^ pos < 2 ^ (pos + size) :=
    lt_of_lt_of_le (Nat.mod_lt _ (Nat.two_pow_pos _))
      (Nat.pow_le_pow_right (by norm_num) (Nat.le_add_right _ _))
  rw [Nat.add_comm (w % 2 ^ pos), Nat.testBit_mul_pow_two_add _ hb,
    ← Nat.shiftRight_eq_div_pow]
  simp only [not64, Nat.testBit_and, Nat.testBit_xor, Nat.testBit_two_pow_sub_one,
    Nat.testBit_shiftLeft, Nat.testBit_mod_two_pow, Nat.testBit_shiftRight]
  by_cases h1 : i < pos
  · have h2 : i < pos + size := by omega
    have h3 : i < 64 := by omega
    have h4 : ¬ pos ≤ i := by omega
    simp [h1, h2, h3, h4]
  · by_cases h2 : i < pos + size
    · have h3 : i < 64 := by omega
      have h4 : pos ≤ i := by omega
      have h5 : i - pos < size := by omega
      simp [h1, h2, h3, h4, h5]
    · have h4 : pos + size + (i - (pos + size)) = i := by omega
      rw [if_neg h2, h4]
      by_cases h3 : i < 64
      · have h5 : pos ≤ i := by omega
        have h6 : ¬ i - pos < size := by omega
        simp [h1, h3, h5, h6]
      · have h6 : w.testBit i = false := testBit_high_false hw (by omega)
        simp [h6]

theorem bitFieldUpdate_eq (pos size v orig : Nat) (hv : v < 2 ^ size)
    (horig : orig < 2 ^ 64) (hps : pos + size ≤ 64) :
    bitFieldUpdate pos size v orig =
      orig % 2 ^ pos + 2 ^ pos * v +
        2 ^ (pos + size) * (orig / 2 ^ (pos + size)) := by
  rw [bitFieldUpdate, bitFieldMaskInPlace, and_not64_mask orig pos size horig hps,
    bitFieldEncode]
  have hlow : orig % 2 ^ pos < 2 ^ pos := Nat.mod_lt _ (Nat.two_pow_pos _)
  have hmid : 2 ^ pos * v + orig % 2 ^ pos < 2 ^ (pos + size) := by
    have : 2 ^ pos * v + 2 ^ pos ≤ 2 ^ pos * 2 ^ size := by
      have := Nat.succ_le_of_lt hv
      calc 2 ^ pos * v + 2 ^ pos = 2 ^ pos * (v + 1) := by ring
        _ ≤ 2 ^ pos * 2 ^ size := Nat.mul_le_mul_left _ this
    have hps' : (2 : Nat) ^ pos * 2 ^ size = 2 ^ (pos + size) := (pow_add 2 pos size).symm
    omega
  calc v <<< pos ||| (orig % 2 ^ pos + 2 ^ (pos + size) * (orig / 2 ^ (pos + size)))
      = v <<< pos ||| (2 ^ (pos + size) * (orig / 2 ^ (pos + size)) ||| orig % 2 ^ pos) := by
        rw [← Nat.mul_add_lt_is_or (lt_of_lt_of_le hlow
          (Nat.pow_le_pow_right (by norm_num) (Nat.le_add_right _ _))), Nat.add_comm]
    _ = 2 ^ (pos + size) * (orig / 2 ^ (pos + size)) ||| (v <<< pos ||| orig % 2 ^ pos) := by
        rw [← Nat.or_assoc, Nat.or_comm (v <<< pos), Nat.or_assoc]
    _ = 2 ^ (pos + size) * (orig / 2 ^ (pos + size)) ||| (2 ^ pos * v + orig % 2 ^ pos) := by
        rw [Nat.shiftLeft_eq, Nat.mul_comm v (2 ^ pos), ← Nat.mul_add_lt_is_or hlow]
    _ = 2 ^ (pos + size) * (orig / 2 ^ (pos + size)) + (2 ^ pos * v + orig % 2 ^ pos) := by
        rw [← Nat.mul_add_lt_is_or hmid]
    _ = orig % 2 ^ pos + 2 ^ pos * v + 2 ^ (pos + size) * (orig / 2 ^ (pos + size)) := by
        ring

/-! Arithmetic forms of the Location fields and constructors. -/

theorem ofKindPayload_value (k p : Nat) (hk : k < 32) :
    (Location.ofKindPayload k p).value = k + 32 * p := by
  show KindField.encode k ||| PayloadField.encode p = k + 32 * p
  rw [KindField.encode, PayloadField.encode, bitFieldEncode, bitFieldEncode,
    kKindBitsPos, kPayloadBitsPos]
  show k <<< 0 ||| p <<< (0 + kKindBitsSize) = k + 32 * p
  rw [Nat.shiftLeft_zero, Nat.zero_add, kKindBitsSize,
    or_shl_eq_add k p 5 (by norm_num [hk] )]
  norm_num

theorem kind_val (l : Location) : l.kind = l.value % 32 := by
  rw [Location.kind, KindField.decode, bitFieldDecode_eq, kKindBitsPos, kKindBitsSize]
  norm_num

theorem payload_val (l : Location) : l.payload = l.value / 32 % 2 ^ 59 := by
  rw [Location.payload, PayloadField.decode, bitFieldDecode_eq]
  norm_num [kPayloadBitsPos, kPayloadBitsSize, kKindBitsPos, kKindBitsSize,
    kBitsPerWord]

theorem policy_val (l : Location) : l.policy = l.payload % 8 := by
  rw [Location.policy, PolicyField.decode, bitFieldDecode_eq]
  norm_num

theorem base_reg_val (l : Location) : l.base_reg = l.payload % 64 := by
  rw [Location.base_reg, StackSlotBaseField.decode, bitFieldDecode_eq, kBitsForBaseReg]
  norm_num

theorem stackIndexField_decode_val (w : Nat) :
    StackIndexField.decode w = w / 64 % 2 ^ 53 := by
  rw [StackIndexField.decode, bitFieldDecode_eq]
  norm_num [kBitsForBaseReg, kBitsForStackIndex, kPayloadBitsSize,
    kPayloadBitsPos, kKindBitsPos, kKindBitsSize, kBitsPerWord]

theorem stack_index_val (l : Location) :
    l.stack_index = (l.payload / 64 % 2 ^ 53 : Nat) - kStackIndexBias := by
  rw [Location.stack_index, stackIndexField_decode_val]

theorem kStackIndexBias_val : kStackIndexBias = (2 : Int) ^ 52 := by
  norm_num [kStackIndexBias, kBitsForStackIndex, kPayloadBitsSize,
    kPayloadBitsPos, kKindBitsPos, kKindBitsSize, kBitsPerWord,
    kBitsForBaseReg]

theorem stackPayload_eq (b enc : Nat) (hb : b < 64) :
    StackSlotBaseField.encode b ||| StackIndexField.encode enc = b + 64 * enc := by
  rw [StackSlotBaseField.encode, StackIndexField.encode, bitFieldEncode,
    bitFieldEncode, kBitsForBaseReg, Nat.shiftLeft_zero,
    or_shl_eq_add b enc 6 (by norm_num [hb])]
  norm_num

theorem kStackIndexBias_num : kStackIndexBias = (4503599627370496 : Int) := by
  rw [kStackIndexBias_val]; norm_num

theorem UnallocatedLocation_value (p : Nat) :
    (Location.UnallocatedLocation p).value = 3 + 32 * p := by
  rw [Location.UnallocatedLocation, PolicyField.encode, bitFieldEncode,
    Nat.shiftLeft_zero, ofKindPayload_value _ _ (by norm_num [kUnallocated]),
    kUnallocated]

theorem RegisterLocation_value (r : Nat) :
    (Location.RegisterLocation r).value = 8 + 32 * r := by
  rw [Location.RegisterLocation, ofKindPayload_value _ _ (by norm_num [kRegister]),
    kRegister]

theorem FpuRegisterLocation_value (r : Nat) :
    (Location.FpuRegisterLocation r).value = 12 + 32 * r := by
  rw [Location.FpuRegisterLocation,
    ofKindPayload_value _ _ (by norm_num [kFpuRegister]), kFpuRegister]

theorem Constant_value (ref : Nat) (h4 : ref % 4 = 0) :
    (Location.Constant ref).value = ref + 1 := by
  show ref ||| kConstantTag = ref + 1
  have hrep : ref = (ref / 2) <<< 1 := by rw [Nat.shiftLeft_eq]; omega
  rw [kConstantTag]
  conv_lhs => rw [hrep]
  rw [shl_or_eq_add 1 (ref / 2) 1 (by norm_num)]
  omega

theorem pairRef_value (addr : Nat) (h4 : addr % 4 = 0) :
    (⟨addr ||| kPairLocationTag⟩ : Location).value = addr + 2 := by
  show addr ||| kPairLocationTag = addr + 2
  have hrep : addr = (addr / 4) <<< 2 := by rw [Nat.shiftLeft_eq]; omega
  rw [kPairLocationTag]
  conv_lhs => rw [hrep]
  rw [shl_or_eq_add 2 (addr / 4) 2 (by norm_num)]
  omega

theorem EncodeStackIndex_some (o : Int) (hlo : -kStackIndexBias ≤ o)
    (hhi : o < kStackIndexBias) :
    Location.EncodeStackIndex o = some (kStackIndexBias + o).toNat := by
  rw [Location.EncodeStackIndex, if_pos ⟨hlo, hhi⟩]

theorem EncodeStackIndex_none (o : Int)
    (h : o < -kStackIndexBias ∨ kStackIndexBias ≤ o) :
    Location.EncodeStackIndex o = none := by
  rw [Location.EncodeStackIndex, if_neg]
  omega

theorem encIdx_int (o : Int) (hlo : -kStackIndexBias ≤ o) :
    ((kStackIndexBias + o).toNat : Int) = kStackIndexBias + o := by
  have := kStackIndexBias_num
  omega

theorem encIdx_lt (o : Int) (hhi : o < kStackIndexBias) :
    (kStackIndexBias + o).toNat < 2 ^ 53 := by
  have := kStackIndexBias_num
  norm_num
  omega

theorem slot_value (k : Nat) (hk : k < 32) (o : Int) (b : Nat) (hb : b < 64) :
    (Location.ofKindPayload k
      (StackSlotBaseField.encode b |||
        StackIndexField.encode (kStackIndexBias + o).toNat)).value =
      k + 32 * (b + 64 * (kStackIndexBias + o).toNat) := by
  rw [stackPayload_eq b _ hb, ofKindPayload_value _ _ hk]

theorem slotVal_payload (k b e : Nat) (hk : k < 32) (hb : b < 64)
    (he : e < 2 ^ 53) :
    (⟨k + 32 * (b + 64 * e)⟩ : Location).payload = b + 64 * e := by
  rw [payload_val]
  show (k + 32 * (b + 64 * e)) / 32 % 2 ^ 59 = b + 64 * e
  norm_num
  omega

theorem slotVal_kind (k b e : Nat) (hk : k < 32) :
    (⟨k + 32 * (b + 64 * e)⟩ : Location).kind = k := by
  rw [kind_val]
  show (k + 32 * (b + 64 * e)) % 32 = k
  omega

theorem slotVal_base_reg (k b e : Nat) (hk : k < 32) (hb : b < 64)
    (he : e < 2 ^ 53) :
    (⟨k + 32 * (b + 64 * e)⟩ : Location).base_reg = b := by
  rw [base_reg_val, slotVal_payload k b e hk hb he]
  omega

theorem slotVal_stack_index (k b e : Nat) (hk : k < 32) (hb : b < 64)
    (he : e < 2 ^ 53) :
    (⟨k + 32 * (b + 64 * e)⟩ : Location).stack_index = (e : Int) - kStackIndexBias := by
  rw [stack_index_val, slotVal_payload k b e hk hb he]
  congr 1
  norm_num
  omega

theorem StackSlot_eq (o : Int) (b : Nat) (hlo : -kStackIndexBias ≤ o)
    (hhi : o < kStackIndexBias) :
    Location.StackSlot o b = some (Location.ofKindPayload kStackSlot
      (StackSlotBaseField.encode b |||
        StackIndexField.encode (kStackIndexBias + o).toNat)) := by
  rw [Location.StackSlot, EncodeStackIndex_some o hlo hhi, Option.map_some']

theorem DoubleStackSlot_eq (o : Int) (b : Nat) (hlo : -kStackIndexBias ≤ o)
    (hhi : o < kStackIndexBias) :
    Location.DoubleStackSlot o b = some (Location.ofKindPayload kDoubleStackSlot
      (StackSlotBaseField.encode b |||
        StackIndexField.encode (kStackIndexBias + o).toNat)) := by
  rw [Location.DoubleStackSlot, EncodeStackIndex_some o hlo hhi, Option.map_some']

theorem QuadStackSlot_eq (o : Int) (b : Nat) (hlo : -kStackIndexBias ≤ o)
    (hhi : o < kStackIndexBias) :
    Location.QuadStackSlot o b = some (Location.ofKindPayload kQuadStackSlot
      (StackSlotBaseField.encode b |||
        StackIndexField.encode (kStackIndexBias + o).toNat)) := by
  rw [Location.QuadStackSlot, EncodeStackIndex_some o hlo hhi, Option.map_some']

theorem decode_slot (kk : Nat) (hkk : kk = 4 ∨ kk = 7 ∨ kk = 11) (o : Int)
    (b : Nat) (hb : b < 64) (hlo : -kStackIndexBias ≤ o)
    (hhi : o < kStackIndexBias) (l : Location)
    (hl : l = Location.ofKindPayload kk
      (StackSlotBaseField.encode b |||
        StackIndexField.encode (kStackIndexBias + o).toNat)) :
    l.value / 32 / 64 % 2 ^ 53 = (kStackIndexBias + o).toNat ∧
      l.value / 32 % 64 = b ∧ l.value % 4 ≠ 1 ∧ l.value % 4 ≠ 2 ∧
      l.value ≠ 0 ∧ l.value % 32 = kk ∧
      ((kStackIndexBias + o).toNat : Int) - kStackIndexBias = o := by
  have hv : l.value = kk + 32 * (b + 64 * (kStackIndexBias + o).toNat) := by
    rw [hl, slot_value kk (by omega) o b hb]
  have hE : (kStackIndexBias + o).toNat < 2 ^ 53 := encIdx_lt o hhi
  have hEi : ((kStackIndexBias + o).toNat : Int) = kStackIndexBias + o :=
    encIdx_int o hlo
  rw [hv]
  norm_num at hE ⊢
  refine ⟨by omega, by omega, by omega, by omega, by omega, by omega, by omega⟩

theorem decode_buildLoc (c : LCtor) (l : Location) (h : buildLoc c = some l) :
    decodeLCtor l.value = some c := by
  cases c with
  | invalid =>
    simp only [buildLoc, Option.some.injEq] at h
    subst h
    decide
  | unallocated p =>
    simp only [buildLoc] at h
    split_ifs at h with hp
    · simp only [Option.some.injEq] at h
      subst h
      rw [UnallocatedLocation_value]
      rw [decodeLCtor.eq_def, if_neg (by omega), if_neg (by omega),
        if_neg (by omega), if_pos (by omega : (3 + 32 * p) % 32 = 3)]
      have : (3 + 32 * p) / 32 % 8 = p := by omega
      rw [this]
  | reg r =>
    simp only [buildLoc] at h
    split_ifs at h with hr
    · simp only [Option.some.injEq] at h
      subst h
      rw [RegisterLocation_value]
      rw [decodeLCtor.eq_def, if_neg (by omega), if_neg (by omega),
        if_neg (by omega), if_neg (by omega),
        if_pos (by omega : (8 + 32 * r) % 32 = 8)]
      have : (8 + 32 * r) / 32 % 2 ^ 59 = r := by norm_num; omega
      rw [this]
  | fpuReg r =>
    simp only [buildLoc] at h
    split_ifs at h with hr
    · simp only [Option.some.injEq] at h
      subst h
      rw [FpuRegisterLocation_value]
      rw [decodeLCtor.eq_def, if_neg (by omega), if_neg (by omega),
        if_neg (by omega), if_neg (by omega), if_neg (by omega),
        if_pos (by omega : (12 + 32 * r) % 32 = 12)]
      have : (12 + 32 * r) / 32 % 2 ^ 59 = r := by norm_num; omega
      rw [this]
  | stackSlot o b =>
    simp only [buildLoc] at h
    split_ifs at h with hb
    · by_cases hrange : -kStackIndexBias ≤ o ∧ o < kStackIndexBias
      · rw [StackSlot_eq o b hrange.1 hrange.2, Option.some.injEq] at h
        obtain ⟨hE, hB, ht1, ht2, hz, hk, hI⟩ :=
          decode_slot kStackSlot (by norm_num [kStackSlot]) o b hb hrange.1
            hrange.2 l h.symm
        have hk4 : l.value % 32 = 4 := by rw [hk]; rfl
        rw [decodeLCtor.eq_def, if_neg ht1, if_neg ht2, if_neg hz,
          if_neg (by omega), if_neg (by omega), if_neg (by omega),
          if_pos hk4, hE, hB, hI]
      · rw [Location.StackSlot, EncodeStackIndex_none o (by omega)] at h
        exact Option.noConfusion h
  | doubleStackSlot o b =>
    simp only [buildLoc] at h
    split_ifs at h with hb
    · by_cases hrange : -kStackIndexBias ≤ o ∧ o < kStackIndexBias
      · rw [DoubleStackSlot_eq o b hrange.1 hrange.2, Option.some.injEq] at h
        obtain ⟨hE, hB, ht1, ht2, hz, hk, hI⟩ :=
          decode_slot kDoubleStackSlot (by norm_num [kDoubleStackSlot]) o b hb
            hrange.1 hrange.2 l h.symm
        have hk7 : l.value % 32 = 7 := by rw [hk]; rfl
        rw [decodeLCtor.eq_def, if_neg ht1, if_neg ht2, if_neg hz,
          if_neg (by omega), if_neg (by omega), if_neg (by omega),
          if_neg (by omega), if_pos hk7, hE, hB, hI]
      · rw [Location.DoubleStackSlot, EncodeStackIndex_none o (by omega)] at h
        exact Option.noConfusion h
  | quadStackSlot o b =>
    simp only [buildLoc] at h
    split_ifs at h with hb
    · by_cases hrange : -kStackIndexBias ≤ o ∧ o < kStackIndexBias
      · rw [QuadStackSlot_eq o b hrange.1 hrange.2, Option.some.injEq] at h
        obtain ⟨hE, hB, ht1, ht2, hz, hk, hI⟩ :=
          decode_slot kQuadStackSlot (by norm_num [kQuadStackSlot]) o b hb
            hrange.1 hrange.2 l h.symm
        have hk11 : l.value % 32 = 11 := by rw [hk]; rfl
        rw [decodeLCtor.eq_def, if_neg ht1, if_neg ht2, if_neg hz,
          if_neg (by omega), if_neg (by omega), if_neg (by omega),
          if_neg (by omega), if_neg (by omega), if_pos hk11, hE, hB, hI]
      · rw [Location.QuadStackSlot, EncodeStackIndex_none o (by omega)] at h
        exact Option.noConfusion h
  | constant ref =>
    simp only [buildLoc] at h
    split_ifs at h with hc
    · simp only [Option.some.injEq] at h
      subst h
      rw [Constant_value ref hc.1]
      rw [decodeLCtor.eq_def, if_pos (by omega : (ref + 1) % 4 = 1)]
      have : ref + 1 - 1 = ref := by omega
      rw [this]
  | pair addr =>
    simp only [buildLoc] at h
    split_ifs at h with hc
    · simp only [Option.some.injEq] at h
      subst h
      have h8 : addr % 8 = 0 := by
        have := hc.1
        norm_num [kWordSize] at this
        omega
      rw [pairRef_value addr (by omega)]
      rw [decodeLCtor.eq_def, if_neg (by omega), if_pos (by omega : (addr + 2) % 4 = 2)]
      have : addr + 2 - 2 = addr := by omega
      rw [this]

/-- nonTaggedCtor: the constructors whose kind code is stored in the kind
field (everything except Constant and Pair references). -/
def nonTaggedCtor : LCtor → Bool
  | .constant _ => false
  | .pair _ => false
  | _ => true

theorem slotCtor_fields (k : Nat) (hk : k < 32) (o : Int) (b : Nat)
    (hb : b < 64) (hlo : -kStackIndexBias ≤ o) (hhi : o < kStackIndexBias) :
    (Location.ofKindPayload k
      (StackSlotBaseField.encode b |||
        StackIndexField.encode (kStackIndexBias + o).toNat)).stack_index = o ∧
    (Location.ofKindPayload k
      (StackSlotBaseField.encode b |||
        StackIndexField.encode (kStackIndexBias + o).toNat)).base_reg = b := by
  have hE : (kStackIndexBias + o).toNat < 2 ^ 53 := encIdx_lt o hhi
  have hl : Location.ofKindPayload k
      (StackSlotBaseField.encode b |||
        StackIndexField.encode (kStackIndexBias + o).toNat) =
      (⟨k + 32 * (b + 64 * (kStackIndexBias + o).toNat)⟩ : Location) := by
    rw [← slot_value k hk o b hb]
  rw [hl]
  refine ⟨?_, slotVal_base_reg k b _ hk hb hE⟩
  rw [slotVal_stack_index k b _ hk hb hE, encIdx_int o hlo]
  omega

/-- tagOfCtor: the low-2-bit tag each constructor stamps on its encoding. -/
def tagOfCtor : LCtor → Nat
  | .constant _ => 1
  | .pair _ => 2
  | .unallocated _ => 3
  | .doubleStackSlot _ _ => 3
  | .quadStackSlot _ _ => 3
  | _ => 0

/-- kindCode: the kind-field value of a non-tagged constructor; for the two
tagged constructors the supplied fallback is returned. -/
def kindCode : LCtor → Nat → Nat
  | .invalid, _ => 0
  | .unallocated _, _ => 3
  | .reg _, _ => 8
  | .fpuReg _, _ => 12
  | .stackSlot _ _, _ => 4
  | .doubleStackSlot _ _, _ => 7
  | .quadStackSlot _ _, _ => 11
  | .constant _, d => d
  | .pair _, d => d

theorem buildLoc_mod4 (c : LCtor) (l : Location) (h : buildLoc c = some l) :
    l.value % 4 = tagOfCtor c := by
  cases c with
  | invalid =>
    simp only [buildLoc, Option.some.injEq] at h
    subst h
    decide
  | unallocated p =>
    simp only [buildLoc] at h
    split_ifs at h with hp
    simp only [Option.some.injEq] at h
    subst h
    rw [UnallocatedLocation_value]
    simp only [tagOfCtor]
    omega
  | reg r =>
    simp only [buildLoc] at h
    split_ifs at h with hr
    simp only [Option.some.injEq] at h
    subst h
    rw [RegisterLocation_value]
    simp only [tagOfCtor]
    omega
  | fpuReg r =>
    simp only [buildLoc] at h
    split_ifs at h with hr
    simp only [Option.some.injEq] at h
    subst h
    rw [FpuRegisterLocation_value]
    simp only [tagOfCtor]
    omega
  | stackSlot o b =>
    simp only [buildLoc] at h
    split_ifs at h with hb
    by_cases hrange : -kStackIndexBias ≤ o ∧ o < kStackIndexBias
    · rw [StackSlot_eq o b hrange.1 hrange.2, Option.some.injEq] at h
      rw [← h, slot_value kStackSlot (by norm_num [kStackSlot]) o b hb, kStackSlot]
      simp only [tagOfCtor]
      omega
    · rw [Location.StackSlot, EncodeStackIndex_none o (by omega)] at h
      exact Option.noConfusion h
  | doubleStackSlot o b =>
    simp only [buildLoc] at h
    split_ifs at h with hb
    by_cases hrange : -kStackIndexBias ≤ o ∧ o < kStackIndexBias
    · rw [DoubleStackSlot_eq o b hrange.1 hrange.2, Option.some.injEq] at h
      rw [← h, slot_value kDoubleStackSlot (by norm_num [kDoubleStackSlot]) o b hb,
        kDoubleStackSlot]
      simp only [tagOfCtor]
      omega
    · rw [Location.DoubleStackSlot, EncodeStackIndex_none o (by omega)] at h
      exact Option.noConfusion h
  | quadStackSlot o b =>
    simp only [buildLoc] at h
    split_ifs at h with hb
    by_cases hrange : -kStackIndexBias ≤ o ∧ o < kStackIndexBias
    · rw [QuadStackSlot_eq o b hrange.1 hrange.2, Option.some.injEq] at h
      rw [← h, slot_value kQuadStackSlot (by norm_num [kQuadStackSlot]) o b hb,
        kQuadStackSlot]
      simp only [tagOfCtor]
      omega
    · rw [Location.QuadStackSlot, EncodeStackIndex_none o (by omega)] at h
      exact Option.noConfusion h
  | constant ref =>
    simp only [buildLoc] at h
    split_ifs at h with hc
    simp only [Option.some.injEq] at h
    subst h
    rw [Constant_value ref hc.1]
    simp only [tagOfCtor]
    omega
  | pair addr =>
    simp only [buildLoc] at h
    split_ifs at h with hc
    simp only [Option.some.injEq] at h
    subst h
    have h8 : addr % 8 = 0 := by
      have := hc.1
      norm_num [kWordSize] at this
      omega
    rw [pairRef_value addr (by omega)]
    simp only [tagOfCtor]
    omega

theorem buildLoc_mod32 (c : LCtor) (l : Location) (h : buildLoc c = some l) :
    l.value % 32 = kindCode c (l.value % 32) := by
  cases c with
  | invalid =>
    simp only [buildLoc, Option.some.injEq] at h
    subst h
    decide
  | unallocated p =>
    simp only [buildLoc] at h
    split_ifs at h with hp
    simp only [Option.some.injEq] at h
    subst h
    rw [UnallocatedLocation_value]
    simp only [kindCode]
    omega
  | reg r =>
    simp only [buildLoc] at h
    split_ifs at h with hr
    simp only [Option.some.injEq] at h
    subst h
    rw [RegisterLocation_value]
    simp only [kindCode]
    omega
  | fpuReg r =>
    simp only [buildLoc] at h
    split_ifs at h with hr
    simp only [Option.some.injEq] at h
    subst h
    rw [FpuRegisterLocation_value]
    simp only [kindCode]
    omega
  | stackSlot o b =>
    simp only [buildLoc] at h
    split_ifs at h with hb
    by_cases hrange : -kStackIndexBias ≤ o ∧ o < kStackIndexBias
    · rw [StackSlot_eq o b hrange.1 hrange.2, Option.some.injEq] at h
      rw [← h, slot_value kStackSlot (by norm_num [kStackSlot]) o b hb, kStackSlot]
      simp only [kindCode]
      omega
    · rw [Location.StackSlot, EncodeStackIndex_none o (by omega)] at h
      exact Option.noConfusion h
  | doubleStackSlot o b =>
    simp only [buildLoc] at h
    split_ifs at h with hb
    by_cases hrange : -kStackIndexBias ≤ o ∧ o < kStackIndexBias
    · rw [DoubleStackSlot_eq o b hrange.1 hrange.2, Option.some.injEq] at h
      rw [← h, slot_value kDoubleStackSlot (by norm_num [kDoubleStackSlot]) o b hb,
        kDoubleStackSlot]
      simp only [kindCode]
      omega
    · rw [Location.DoubleStackSlot, EncodeStackIndex_none o (by omega)] at h
      exact Option.noConfusion h
  | quadStackSlot o b =>
    simp only [buildLoc] at h
    split_ifs at h with hb
    by_cases hrange : -kStackIndexBias ≤ o ∧ o < kStackIndexBias
    · rw [QuadStackSlot_eq o b hrange.1 hrange.2, Option.some.injEq] at h
      rw [← h, slot_value kQuadStackSlot (by norm_num [kQuadStackSlot]) o b hb,
        kQuadStackSlot]
      simp only [kindCode]
      omega
    · rw [Location.QuadStackSlot, EncodeStackIndex_none o (by omega)] at h
      exact Option.noConfusion h
  | constant ref => rfl
  | pair addr => rfl

/-- C1: Location.Equals holds exactly when the raw packed word encodings are
equal, and two Locations built by the public constructors have equal raw
encodings exactly when they were built by the same constructor with the
same in-range parameters; in particular different constructors or
different parameters give unequal encodings and Equals returns false. -/
theorem C1_equals_iff_raw_and_ctor_injective (c₁ c₂ : LCtor) (l₁ l₂ : Location)
    (h₁ : buildLoc c₁ = some l₁) (h₂ : buildLoc c₂ = some l₂) :
    (l₁.Equals l₂ = true ↔ l₁.value = l₂.value) ∧
      (l₁.value = l₂.value ↔ c₁ = c₂) := by
  refine ⟨by simp [Location.Equals], ?_, ?_⟩
  · intro hv
    have d₁ := decode_buildLoc c₁ l₁ h₁
    have d₂ := decode_buildLoc c₂ l₂ h₂
    rw [hv] at d₁
    exact Option.some.inj (d₁.symm.trans d₂)
  · intro hc
    subst hc
    rw [h₁, Option.some.injEq] at h₂
    rw [h₂]

/-- C1 witness: two registers with different codes have unequal encodings. -/
theorem C1_witness :
    ((Location.RegisterLocation 1).Equals (Location.RegisterLocation 2) = true ↔
      (Location.RegisterLocation 1).value = (Location.RegisterLocation 2).value) ∧
    ((Location.RegisterLocation 1).value = (Location.RegisterLocation 2).value ↔
      LCtor.reg 1 = LCtor.reg 2) :=
  C1_equals_iff_raw_and_ctor_injective (.reg 1) (.reg 2)
    (Location.RegisterLocation 1) (Location.RegisterLocation 2)
    (by decide) (by decide)

/-- C2: for every signed index in the biased range and valid base register,
the three stack-slot constructors succeed and their stack_index / base_reg
accessors recover the arguments exactly; outside the range the
precondition check fails. -/
theorem C2_stack_index_round_trip :
    (∀ (o : Int) (r : Nat) (l : Location), r < 64 →
        Location.StackSlot o r = some l →
          l.stack_index = o ∧ l.base_reg = r) ∧
    (∀ (o : Int) (r : Nat) (l : Location), r < 64 →
        Location.DoubleStackSlot o r = some l →
          l.stack_index = o ∧ l.base_reg = r) ∧
    (∀ (o : Int) (r : Nat) (l : Location), r < 64 →
        Location.QuadStackSlot o r = some l →
          l.stack_index = o ∧ l.base_reg = r) ∧
    (∀ (o : Int) (r : Nat), -kStackIndexBias ≤ o → o < kStackIndexBias →
        (Location.StackSlot o r).isSome = true ∧
          (Location.DoubleStackSlot o r).isSome = true ∧
          (Location.QuadStackSlot o r).isSome = true) ∧
    (∀ (o : Int) (r : Nat), o < -kStackIndexBias ∨ kStackIndexBias ≤ o →
        Location.StackSlot o r = none ∧ Location.DoubleStackSlot o r = none ∧
          Location.QuadStackSlot o r = none) := by
  refine ⟨?_, ?_, ?_, ?_, ?_⟩
  · intro o r l hr h
    by_cases hrange : -kStackIndexBias ≤ o ∧ o < kStackIndexBias
    · rw [StackSlot_eq o r hrange.1 hrange.2, Option.some.injEq] at h
      rw [← h]
      exact slotCtor_fields kStackSlot (by norm_num [kStackSlot]) o r hr
        hrange.1 hrange.2
    · rw [Location.StackSlot, EncodeStackIndex_none o (by omega)] at h
      exact Option.noConfusion h
  · intro o r l hr h
    by_cases hrange : -kStackIndexBias ≤ o ∧ o < kStackIndexBias
    · rw [DoubleStackSlot_eq o r hrange.1 hrange.2, Option.some.injEq] at h
      rw [← h]
      exact slotCtor_fields kDoubleStackSlot (by norm_num [kDoubleStackSlot]) o r
        hr hrange.1 hrange.2
    · rw [Location.DoubleStackSlot, EncodeStackIndex_none o (by omega)] at h
      exact Option.noConfusion h
  · intro o r l hr h
    by_cases hrange : -kStackIndexBias ≤ o ∧ o < kStackIndexBias
    · rw [QuadStackSlot_eq o r hrange.1 hrange.2, Option.some.injEq] at h
      rw [← h]
      exact slotCtor_fields kQuadStackSlot (by norm_num [kQuadStackSlot]) o r hr
        hrange.1 hrange.2
    · rw [Location.QuadStackSlot, EncodeStackIndex_none o (by omega)] at h
      exact Option.noConfusion h
  · intro o r hlo hhi
    rw [StackSlot_eq o r hlo hhi, DoubleStackSlot_eq o r hlo hhi,
      QuadStackSlot_eq o r hlo hhi]
    exact ⟨rfl, rfl, rfl⟩
  · intro o r h
    rw [Location.StackSlot, Location.DoubleStackSlot, Location.QuadStackSlot,
      EncodeStackIndex_none o (by omega)]
    exact ⟨rfl, rfl, rfl⟩

/-- C2 witness: StackSlot(-1, 5) round-trips and StackSlot(bias, 0) fails. -/
theorem C2_witness :
    ((⟨4 + 32 * (5 + 64 * (2 ^ 52 - 1))⟩ : Location).stack_index = -1 ∧
      (⟨4 + 32 * (5 + 64 * (2 ^ 52 - 1))⟩ : Location).base_reg = 5) ∧
    ((Location.StackSlot (-1) 5).isSome = true ∧
      (Location.DoubleStackSlot (-1) 5).isSome = true ∧
      (Location.QuadStackSlot (-1) 5).isSome = true) ∧
    (Location.StackSlot ((2 : Int) ^ 52) 0 = none ∧
      Location.DoubleStackSlot ((2 : Int) ^ 52) 0 = none ∧
      Location.QuadStackSlot ((2 : Int) ^ 52) 0 = none) :=
  ⟨C2_stack_index_round_trip.1 (-1) 5 ⟨4 + 32 * (5 + 64 * (2 ^ 52 - 1))⟩
      (by decide) (by decide),
    C2_stack_index_round_trip.2.2.2.1 (-1) 5 (by decide) (by decide),
    C2_stack_index_round_trip.2.2.2.2 ((2 : Int) ^ 52) 0 (by decide)⟩

/-- C3: none of the non-tagged kind codes collides with the constant or
pair tag in its low two bits, and no Location built by a non-tagged
constructor has a raw encoding whose tag bits equal kConstantTag or
kPairLocationTag; IsConstant and IsPairLocation are false on all of them. -/
theorem C3_tag_non_collision :
    (∀ k ∈ [kInvalid, kUnallocated, kStackSlot, kDoubleStackSlot,
        kQuadStackSlot, kRegister, kFpuRegister],
      k &&& kLocationTagMask ≠ kConstantTag ∧
        k &&& kLocationTagMask ≠ kPairLocationTag) ∧
    (∀ (c : LCtor) (l : Location), buildLoc c = some l → nonTaggedCtor c = true →
      l.value &&& kLocationTagMask ≠ kConstantTag ∧
        l.value &&& kLocationTagMask ≠ kPairLocationTag ∧
        l.IsConstant = false ∧ l.IsPairLocation = false) := by
  constructor
  · decide
  · intro c l h hnt
    have hmask : l.value &&& kLocationTagMask = l.value % 4 := by
      rw [kLocationTagMask]
      exact Nat.and_pow_two_sub_one_eq_mod l.value 2
    have h4 := buildLoc_mod4 c l h
    have hm : l.value % 4 = 0 ∨ l.value % 4 = 3 := by
      cases c <;> simp_all [nonTaggedCtor, tagOfCtor]
    refine ⟨?_, ?_, ?_, ?_⟩
    · rw [hmask, kConstantTag]; omega
    · rw [hmask, kPairLocationTag]; omega
    · rw [Location.IsConstant, hmask]
      simp [kConstantTag]
      omega
    · rw [Location.IsPairLocation, hmask]
      simp [kPairLocationTag]
      omega

/-- C3 witness: instantiated at the register kind and a register location. -/
theorem C3_witness :
    (kRegister &&& kLocationTagMask ≠ kConstantTag ∧
      kRegister &&& kLocationTagMask ≠ kPairLocationTag) ∧
    ((Location.RegisterLocation 0).value &&& kLocationTagMask ≠ kConstantTag ∧
      (Location.RegisterLocation 0).value &&& kLocationTagMask ≠ kPairLocationTag ∧
      (Location.RegisterLocation 0).IsConstant = false ∧
      (Location.RegisterLocation 0).IsPairLocation = false) :=
  ⟨C3_tag_non_collision.1 kRegister (by decide),
    C3_tag_non_collision.2 (.reg 0) (Location.RegisterLocation 0)
      (by decide) (by decide)⟩

/-! Boolean predicate characterisations in arithmetic form. -/

theorem and_tagMask_val (l : Location) :
    l.value &&& kLocationTagMask = l.value % 4 := by
  rw [kLocationTagMask]
  exact Nat.and_pow_two_sub_one_eq_mod l.value 2

theorem IsInvalid_iff (l : Location) : l.IsInvalid = true ↔ l.value = 0 := by
  simp [Location.IsInvalid, kInvalidLocation]

theorem IsConstant_iff (l : Location) : l.IsConstant = true ↔ l.value % 4 = 1 := by
  rw [Location.IsConstant, and_tagMask_val]
  simp [kConstantTag]

theorem IsPairLocation_iff (l : Location) :
    l.IsPairLocation = true ↔ l.value % 4 = 2 := by
  rw [Location.IsPairLocation, and_tagMask_val]
  simp [kPairLocationTag]

theorem IsUnallocated_iff (l : Location) :
    l.IsUnallocated = true ↔ l.value % 32 = 3 := by
  rw [Location.IsUnallocated, kind_val]
  simp [kUnallocated]

theorem IsRegister_iff (l : Location) :
    l.IsRegister = true ↔ l.value % 32 = 8 := by
  rw [Location.IsRegister, kind_val]
  simp [kRegister]

theorem IsFpuRegister_iff (l : Location) :
    l.IsFpuRegister = true ↔ l.value % 32 = 12 := by
  rw [Location.IsFpuRegister, kind_val]
  simp [kFpuRegister]

theorem IsMachineRegister_iff (l : Location) :
    l.IsMachineRegister = true ↔ (l.value % 32 = 8 ∨ l.value % 32 = 12) := by
  rw [Location.IsMachineRegister, IsMachineRegisterKind, kind_val]
  simp [kRegister, kFpuRegister]

theorem HasStackIndex_iff (l : Location) :
    l.HasStackIndex = true ↔
      (l.value % 32 = 4 ∨ l.value % 32 = 7 ∨ l.value % 32 = 11) := by
  rw [Location.HasStackIndex, Location.IsStackSlot, Location.IsDoubleStackSlot,
    Location.IsQuadStackSlot, kind_val]
  simp only [Bool.or_eq_true, beq_iff_eq, kStackSlot, kDoubleStackSlot,
    kQuadStackSlot]
  omega

/-! Constructor classifiers for the register claims. -/

def isRegCtor : LCtor → Bool
  | .reg _ => true
  | _ => false

def isFpuCtor : LCtor → Bool
  | .fpuReg _ => true
  | _ => false

def isMachineCtor (c : LCtor) : Bool := isRegCtor c || isFpuCtor c

theorem buildLoc_IsRegister (c : LCtor) (l : Location) (h : buildLoc c = some l) :
    l.IsRegister = isRegCtor c := by
  have h32 := buildLoc_mod32 c l h
  have h4 := buildLoc_mod4 c l h
  cases c <;>
    simp only [kindCode, tagOfCtor] at h32 h4 <;>
    simp only [isRegCtor] <;>
    first
      | exact (IsRegister_iff l).mpr (by omega)
      | exact Bool.eq_false_iff.mpr (fun hh => by
          have hx := (IsRegister_iff l).mp hh
          omega)

theorem buildLoc_IsFpuRegister (c : LCtor) (l : Location)
    (h : buildLoc c = some l) :
    l.IsFpuRegister = isFpuCtor c := by
  have h32 := buildLoc_mod32 c l h
  have h4 := buildLoc_mod4 c l h
  cases c <;>
    simp only [kindCode, tagOfCtor] at h32 h4 <;>
    simp only [isFpuCtor] <;>
    first
      | exact (IsFpuRegister_iff l).mpr (by omega)
      | exact Bool.eq_false_iff.mpr (fun hh => by
          have hx := (IsFpuRegister_iff l).mp hh
          omega)

/-- C9: RegisterSet::Contains returns the cpu (resp. fpu) bitmask bit for a
register (resp. fpu-register) location, reaches its unreachable branch for
every other constructed kind, and never reaches it when the location is a
machine register. -/
theorem C9_contains_only_machine_registers :
    (∀ (rs : RegisterSet) (l : Location), l.IsRegister = true →
        rs.Contains l = some (rs.ContainsRegister l.reg)) ∧
    (∀ (rs : RegisterSet) (l : Location), l.IsFpuRegister = true →
        rs.Contains l = some (rs.ContainsFpuRegister l.fpu_reg)) ∧
    (∀ (rs : RegisterSet) (c : LCtor) (l : Location), buildLoc c = some l →
        isMachineCtor c = false → rs.Contains l = none) ∧
    (∀ (rs : RegisterSet) (l : Location), l.IsMachineRegister = true →
        (rs.Contains l).isSome = true) := by
  refine ⟨?_, ?_, ?_, ?_⟩
  · intro rs l h
    rw [RegisterSet.Contains, if_pos h]
  · intro rs l h
    have hreg : ¬ l.IsRegister = true := fun hr => by
      have h8 := (IsRegister_iff l).mp hr
      have h12 := (IsFpuRegister_iff l).mp h
      omega
    rw [RegisterSet.Contains, if_neg hreg, if_pos h]
  · intro rs c l h hm
    have hr := buildLoc_IsRegister c l h
    have hf := buildLoc_IsFpuRegister c l h
    rw [isMachineCtor, Bool.or_eq_false_iff] at hm
    rw [RegisterSet.Contains, if_neg (by rw [hr, hm.1]; exact Bool.false_ne_true),
      if_neg (by rw [hf, hm.2]; exact Bool.false_ne_true)]
  · intro rs l h
    rw [IsMachineRegister_iff] at h
    rw [RegisterSet.Contains]
    by_cases hr : l.IsRegister = true
    · rw [if_pos hr]; rfl
    · have hf : l.IsFpuRegister = true := by
        rw [IsFpuRegister_iff]
        have : ¬ l.value % 32 = 8 := fun hh => hr ((IsRegister_iff l).mpr hh)
        omega
      rw [if_neg hr, if_pos hf]
      rfl

/-- C9 witness: a register location is looked up in the cpu mask; a constant
location reaches the unreachable branch. -/
theorem C9_witness :
    RegisterSet.new.Contains (Location.RegisterLocation 3) =
      some (RegisterSet.new.ContainsRegister (Location.RegisterLocation 3).reg) ∧
    RegisterSet.new.Contains (Location.Constant 4) = none ∧
    (RegisterSet.new.Contains (Location.RegisterLocation 3)).isSome = true :=
  ⟨C9_contains_only_machine_registers.1 RegisterSet.new
      (Location.RegisterLocation 3) (by decide),
    C9_contains_only_machine_registers.2.2.1 RegisterSet.new (.constant 4)
      (Location.Constant 4) (by decide) (by decide),
    C9_contains_only_machine_registers.2.2.2 RegisterSet.new
      (Location.RegisterLocation 3) (by decide)⟩

/-- C10: Add and Remove are silent no-ops on every constructed Location that
is neither register- nor fpu-register-kind: all three bitmasks are
unchanged and no check fails. -/
theorem C10_add_remove_noop_on_non_registers :
    ∀ (rs : RegisterSet) (rep : Nat) (c : LCtor) (l : Location),
      buildLoc c = some l → isMachineCtor c = false →
        rs.Add l rep = rs ∧ rs.Remove l = rs := by
  intro rs rep c l h hm
  have hr := buildLoc_IsRegister c l h
  have hf := buildLoc_IsFpuRegister c l h
  rw [isMachineCtor, Bool.or_eq_false_iff] at hm
  have hr' : ¬ l.IsRegister = true := by rw [hr, hm.1]; exact Bool.false_ne_true
  have hf' : ¬ l.IsFpuRegister = true := by rw [hf, hm.2]; exact Bool.false_ne_true
  constructor
  · rw [RegisterSet.Add, if_neg hr', if_neg hf']
  · rw [RegisterSet.Remove, if_neg hr', if_neg hf']

/-- C10 witness: adding and removing a constant location leaves the set
untouched. -/
theorem C10_witness :
    RegisterSet.new.Add (Location.Constant 4) kUntagged = RegisterSet.new ∧
      RegisterSet.new.Remove (Location.Constant 4) = RegisterSet.new :=
  C10_add_remove_noop_on_non_registers RegisterSet.new kUntagged (.constant 4)
    (Location.Constant 4) (by decide) (by decide)

theorem unallocated_not_machine (l : Location) (h : l.IsUnallocated = true) :
    l.IsMachineRegister = false := by
  have h3 := (IsUnallocated_iff l).mp h
  refine Bool.eq_false_iff.mpr (fun hm => ?_)
  rcases (IsMachineRegister_iff l).mp hm with hh | hh <;> omega

theorem unallocated_not_invalid (l : Location) (h : l.IsUnallocated = true) :
    l.IsInvalid = false := by
  have h3 := (IsUnallocated_iff l).mp h
  refine Bool.eq_false_iff.mpr (fun hm => ?_)
  have := (IsInvalid_iff l).mp hm
  omega

theorem unallocated_not_pair (l : Location) (h : l.IsUnallocated = true) :
    l.IsPairLocation = false := by
  have h3 := (IsUnallocated_iff l).mp h
  refine Bool.eq_false_iff.mpr (fun hm => ?_)
  have := (IsPairLocation_iff l).mp hm
  omega

theorem RegisterLocation_IsMachineRegister (r : Nat) :
    (Location.RegisterLocation r).IsMachineRegister = true :=
  (IsMachineRegister_iff _).mpr (Or.inl (by rw [RegisterLocation_value]; omega))

/-- C7: under Call / CallCalleeSafe mode, set_temp accepts only machine
registers (placeholders fail) and set_out accepts only a machine register,
Invalid, or a pair reference (bare placeholders fail); in the other modes
both setters accept any location subject only to the index bounds. -/
theorem C7_call_mode_temp_out_legality :
    (∀ (s : LocationSummary) (i : Int) (loc : Location),
        s.always_calls = true → loc.IsMachineRegister = false →
          s.set_temp i loc = none) ∧
    (∀ (s : LocationSummary) (i : Int) (loc : Location),
        s.always_calls = true → loc.IsMachineRegister = true →
          0 ≤ i → i < (s.num_temps : Int) → (s.set_temp i loc).isSome = true) ∧
    (∀ (s : LocationSummary) (i : Int) (loc : Location),
        s.always_calls = true → loc.IsUnallocated = true →
          s.set_temp i loc = none) ∧
    (∀ (s : LocationSummary) (i : Int) (r : Nat),
        s.always_calls = true → 0 ≤ i → i < (s.num_temps : Int) →
          (s.set_temp i (Location.RegisterLocation r)).isSome = true) ∧
    (∀ (s : LocationSummary) (loc : Location),
        s.always_calls = true → loc.IsMachineRegister = false →
          loc.IsInvalid = false → loc.IsPairLocation = false →
          s.set_out 0 loc = none) ∧
    (∀ (s : LocationSummary) (loc : Location),
        s.always_calls = true →
          (loc.IsMachineRegister || loc.IsInvalid || loc.IsPairLocation) = true →
          (s.set_out 0 loc).isSome = true) ∧
    (∀ (s : LocationSummary) (loc : Location),
        s.always_calls = true → loc.IsUnallocated = true →
          s.set_out 0 loc = none) ∧
    (∀ (s : LocationSummary) (i : Int) (loc : Location),
        s.always_calls = false →
          ((s.set_temp i loc).isSome = true ↔
            0 ≤ i ∧ i < (s.num_temps : Int))) ∧
    (∀ (s : LocationSummary) (i : Int) (loc : Location),
        s.always_calls = false →
          ((s.set_out i loc).isSome = true ↔ i = 0)) := by
  have hta : ∀ (s : LocationSummary) (i : Int) (loc : Location),
      s.always_calls = true → loc.IsMachineRegister = false →
        s.set_temp i loc = none := by
    intro s i loc ha hm
    by_cases hb : 0 ≤ i ∧ i < (s.num_temps : Int)
    · simp [LocationSummary.set_temp, hb, ha, hm]
    · simp [LocationSummary.set_temp, hb]
  have hoa : ∀ (s : LocationSummary) (loc : Location),
      s.always_calls = true → loc.IsMachineRegister = false →
        loc.IsInvalid = false → loc.IsPairLocation = false →
          s.set_out 0 loc = none := by
    intro s loc ha hm hi hp
    simp [LocationSummary.set_out, ha, hm, hi, hp]
  refine ⟨hta, ?_, ?_, ?_, hoa, ?_, ?_, ?_, ?_⟩
  · intro s i loc ha hm h0 hn
    have hb : 0 ≤ i ∧ i < (s.num_temps : Int) := ⟨h0, hn⟩
    simp [LocationSummary.set_temp, hb, ha, hm]
  · intro s i loc ha hu
    exact hta s i loc ha (unallocated_not_machine loc hu)
  · intro s i r ha h0 hn
    have hb : 0 ≤ i ∧ i < (s.num_temps : Int) := ⟨h0, hn⟩
    simp [LocationSummary.set_temp, hb, ha,
      RegisterLocation_IsMachineRegister r]
  · intro s loc ha hok
    simp [LocationSummary.set_out, ha, hok]
  · intro s loc ha hu
    exact hoa s loc ha (unallocated_not_machine loc hu)
      (unallocated_not_invalid loc hu) (unallocated_not_pair loc hu)
  · intro s i loc ha
    by_cases hb : 0 ≤ i ∧ i < (s.num_temps : Int)
    · simp [LocationSummary.set_temp, hb, ha]
    · simp [LocationSummary.set_temp, hb]
  · intro s i loc ha
    by_cases hi : i = 0
    · simp [LocationSummary.set_out, hi, ha]
    · simp [LocationSummary.set_out, hi]

/-- C7 witness: under kCall a placeholder temp fails and a register temp
succeeds; an unallocated output fails; under kNoCall only the bounds
matter. -/
theorem C7_witness :
    (LocationSummary.set_temp
      ⟨0, [], 1, [Location.NoLocation], Location.NoLocation,
        ContainsCall.kCall⟩ 0 (Location.UnallocatedLocation kRequiresRegister)
      = none) ∧
    ((LocationSummary.set_temp
      ⟨0, [], 1, [Location.NoLocation], Location.NoLocation,
        ContainsCall.kCall⟩ 0 (Location.RegisterLocation 1)).isSome = true) ∧
    (LocationSummary.set_out
      ⟨0, [], 1, [Location.NoLocation], Location.NoLocation,
        ContainsCall.kCall⟩ 0 (Location.UnallocatedLocation kRequiresRegister)
      = none) ∧
    ((LocationSummary.set_temp
      ⟨0, [], 1, [Location.NoLocation], Location.NoLocation,
        ContainsCall.kNoCall⟩ 0 (Location.UnallocatedLocation kRequiresRegister)).isSome
        = true ↔ (0 : Int) ≤ 0 ∧ (0 : Int) < ((1 : Nat) : Int)) :=
  ⟨C7_call_mode_temp_out_legality.2.2.1 _ 0
      (Location.UnallocatedLocation kRequiresRegister) (by decide) (by decide),
    C7_call_mode_temp_out_legality.2.2.2.1 _ 0 1 (by decide) (by decide)
      (by decide),
    C7_call_mode_temp_out_legality.2.2.2.2.2.2.1 _
      (Location.UnallocatedLocation kRequiresRegister) (by decide) (by decide),
    C7_call_mode_temp_out_legality.2.2.2.2.2.2.2.1 _ 0
      (Location.UnallocatedLocation kRequiresRegister) (by decide)⟩

/-! Pair allocation round trip. -/

theorem pairAddress_mod (n : Nat) : pairAddress n % 4 = 0 := by
  rw [pairAddress, kWordSize]
  omega

theorem AsPair_of_Pair (z : Zone) (x y : Location)
    (hlen : z.pairs.length < 2 ^ 60) :
    Location.AsPairLocation (Location.Pair z x y).1 (Location.Pair z x y).2 =
      some ⟨x, y⟩ := by
  have haddr : pairAddress z.pairs.length = 8 * (z.pairs.length + 1) := by
    rw [pairAddress, kWordSize]
  have hval : (Location.Pair z x y).2.value = 8 * (z.pairs.length + 1) + 2 := by
    show (⟨pairAddress z.pairs.length ||| kPairLocationTag⟩ : Location).value = _
    rw [pairRef_value _ (pairAddress_mod _), haddr]
  have hpair : (Location.Pair z x y).2.IsPairLocation = true := by
    rw [IsPairLocation_iff, hval]
    omega
  have hw : (Location.Pair z x y).2.value < 2 ^ 64 := by
    rw [hval]
    norm_num at hlen ⊢
    omega
  have hmask3 : ((2 : Nat) ^ 2 - 1) <<< 0 = 3 := by decide
  have hstrip : (Location.Pair z x y).2.value &&& not64 kLocationTagMask =
      8 * (z.pairs.length + 1) := by
    rw [kLocationTagMask, show (0x3 : Nat) = 3 from rfl, ← hmask3,
      and_not64_mask _ 0 2 hw (by omega), hval]
    omega
  rw [Location.AsPairLocation, if_pos hpair, hstrip]
  have hidx : 8 * (z.pairs.length + 1) / kWordSize - 1 = z.pairs.length := by
    rw [kWordSize]
    omega
  rw [hidx]
  show (z.pairs ++ [(⟨x, y⟩ : PairLocation)]).get? z.pairs.length =
    some (⟨x, y⟩ : PairLocation)
  exact List.get?_concat_length z.pairs (⟨x, y⟩ : PairLocation)

/-- C5: Pair builds a pair-reference whose two components read back as the
arguments, with length 2; a fresh PairLocation holds Invalid in both
slots, is indexed only by 0 and 1, and always has length kPairLength. -/
theorem C5_pair_component_round_trip :
    (∀ (z : Zone) (x y : Location), x.IsPairLocation = false →
      y.IsPairLocation = false → z.pairs.length < 2 ^ 60 →
      (Location.Pair z x y).2.IsPairLocation = true ∧
        (Location.Pair z x y).2.IsRegister = false ∧
        Location.Component (Location.Pair z x y).1 (Location.Pair z x y).2 0 =
          some x ∧
        (Location.Component (Location.Pair z x y).1 (Location.Pair z x y).2 0).map
          (fun c => c.Equals x) = some true ∧
        Location.Component (Location.Pair z x y).1 (Location.Pair z x y).2 1 =
          some y ∧
        (Location.Component (Location.Pair z x y).1 (Location.Pair z x y).2 1).map
          (fun c => c.Equals y) = some true ∧
        (Location.AsPairLocation (Location.Pair z x y).1
          (Location.Pair z x y).2).map PairLocation.length = some 2) ∧
    (PairLocation.init.At 0 = some Location.NoLocation ∧
      PairLocation.init.At 1 = some Location.NoLocation ∧
      PairLocation.init.loc0.IsInvalid = true ∧
      PairLocation.init.loc1.IsInvalid = true) ∧
    (∀ (q : PairLocation) (i : Int), ¬ (0 ≤ i ∧ i < (kPairLength : Int)) →
      q.At i = none) ∧
    (∀ (q : PairLocation), q.length = kPairLength) := by
  refine ⟨?_, by decide, ?_, fun q => rfl⟩
  · intro z x y hx hy hlen
    have hap := AsPair_of_Pair z x y hlen
    have haddr : pairAddress z.pairs.length = 8 * (z.pairs.length + 1) := by
      rw [pairAddress, kWordSize]
    have hval : (Location.Pair z x y).2.value = 8 * (z.pairs.length + 1) + 2 := by
      show (⟨pairAddress z.pairs.length ||| kPairLocationTag⟩ : Location).value = _
      rw [pairRef_value _ (pairAddress_mod _), haddr]
    refine ⟨by rw [IsPairLocation_iff, hval]; omega, ?_, ?_, ?_, ?_, ?_, ?_⟩
    · refine Bool.eq_false_iff.mpr (fun hr => ?_)
      have := (IsRegister_iff _).mp hr
      rw [hval] at this
      omega
    · rw [Location.Component, hap]
      rfl
    · rw [Location.Component, hap]
      simp [PairLocation.At, Location.Equals, kPairLength]
    · rw [Location.Component, hap]
      rfl
    · rw [Location.Component, hap]
      simp [PairLocation.At, Location.Equals, kPairLength]
    · rw [hap]
      rfl
  · intro q i hi
    rw [PairLocation.At, if_neg hi]

/-- C5 witness: a concrete pair of two register locations. -/
theorem C5_witness :
    (Location.Pair ⟨[]⟩ (Location.RegisterLocation 0)
        (Location.RegisterLocation 1)).2.IsPairLocation = true ∧
      (Location.Pair ⟨[]⟩ (Location.RegisterLocation 0)
        (Location.RegisterLocation 1)).2.IsRegister = false ∧
      Location.Component
        (Location.Pair ⟨[]⟩ (Location.RegisterLocation 0)
          (Location.RegisterLocation 1)).1
        (Location.Pair ⟨[]⟩ (Location.RegisterLocation 0)
          (Location.RegisterLocation 1)).2 0 = some (Location.RegisterLocation 0) ∧
      (Location.Component
        (Location.Pair ⟨[]⟩ (Location.RegisterLocation 0)
          (Location.RegisterLocation 1)).1
        (Location.Pair ⟨[]⟩ (Location.RegisterLocation 0)
          (Location.RegisterLocation 1)).2 0).map
        (fun c => c.Equals (Location.RegisterLocation 0)) = some true ∧
      Location.Component
        (Location.Pair ⟨[]⟩ (Location.RegisterLocation 0)
          (Location.RegisterLocation 1)).1
        (Location.Pair ⟨[]⟩ (Location.RegisterLocation 0)
          (Location.RegisterLocation 1)).2 1 = some (Location.RegisterLocation 1) ∧
      (Location.Component
        (Location.Pair ⟨[]⟩ (Location.RegisterLocation 0)
          (Location.RegisterLocation 1)).1
        (Location.Pair ⟨[]⟩ (Location.RegisterLocation 0)
          (Location.RegisterLocation 1)).2 1).map
        (fun c => c.Equals (Location.RegisterLocation 1)) = some true ∧
      (Location.AsPairLocation
        (Location.Pair ⟨[]⟩ (Location.RegisterLocation 0)
          (Location.RegisterLocation 1)).1
        (Location.Pair ⟨[]⟩ (Location.RegisterLocation 0)
          (Location.RegisterLocation 1)).2).map PairLocation.length = some 2 :=
  C5_pair_component_round_trip.1 ⟨[]⟩ (Location.RegisterLocation 0)
    (Location.RegisterLocation 1) (by decide) (by decide) (by decide)

/-- C6: with ContainsCall mode kCall, set_in accepts a pair whose second
component is an unallocated placeholder with policy kRequiresRegister (the
source checks component 0 twice, lines 703-706, and never checks
component 1), while the same placeholder in component 0 is rejected. -/
theorem C6_set_in_pair_second_component_unchecked :
    (LocationSummary.set_in
        (Location.Pair ⟨[]⟩ (Location.UnallocatedLocation kAny)
          (Location.UnallocatedLocation kRequiresRegister)).1
        ⟨1, [Location.NoLocation], 0, [], Location.NoLocation,
          ContainsCall.kCall⟩ 0
        (Location.Pair ⟨[]⟩ (Location.UnallocatedLocation kAny)
          (Location.UnallocatedLocation kRequiresRegister)).2).isSome = true ∧
    Location.Component
        (Location.Pair ⟨[]⟩ (Location.UnallocatedLocation kAny)
          (Location.UnallocatedLocation kRequiresRegister)).1
        (Location.Pair ⟨[]⟩ (Location.UnallocatedLocation kAny)
          (Location.UnallocatedLocation kRequiresRegister)).2 1 =
      some (Location.UnallocatedLocation kRequiresRegister) ∧
    (Location.UnallocatedLocation kRequiresRegister).IsUnallocated = true ∧
    (Location.UnallocatedLocation kRequiresRegister).policy ≠ kAny ∧
    LocationSummary.set_in
        (Location.Pair ⟨[]⟩ (Location.UnallocatedLocation kRequiresRegister)
          (Location.UnallocatedLocation kAny)).1
        ⟨1, [Location.NoLocation], 0, [], Location.NoLocation,
          ContainsCall.kCall⟩ 0
        (Location.Pair ⟨[]⟩ (Location.UnallocatedLocation kRequiresRegister)
          (Location.UnallocatedLocation kAny)).2 = none := by
  decide

/-! RegisterSet algebra. -/

theorem ToMask_eq (v : Nat) : SmallSet.ToMask v = 2 ^ v := by
  rw [SmallSet.ToMask, Nat.shiftLeft_eq, one_mul]

theorem RegisterLocation_IsRegister (r : Nat) :
    (Location.RegisterLocation r).IsRegister = true :=
  (IsRegister_iff _).mpr (by rw [RegisterLocation_value]; omega)

theorem RegisterLocation_not_IsFpu (r : Nat) :
    (Location.RegisterLocation r).IsFpuRegister = false :=
  Bool.eq_false_iff.mpr (fun h => by
    have := (IsFpuRegister_iff _).mp h
    rw [RegisterLocation_value] at this
    omega)

theorem FpuRegisterLocation_IsFpu (r : Nat) :
    (Location.FpuRegisterLocation r).IsFpuRegister = true :=
  (IsFpuRegister_iff _).mpr (by rw [FpuRegisterLocation_value]; omega)

theorem FpuRegisterLocation_not_IsRegister (r : Nat) :
    (Location.FpuRegisterLocation r).IsRegister = false :=
  Bool.eq_false_iff.mpr (fun h => by
    have := (IsRegister_iff _).mp h
    rw [FpuRegisterLocation_value] at this
    omega)

theorem RegisterLocation_reg (r : Nat) (hr : r < 2 ^ 59) :
    (Location.RegisterLocation r).reg = r := by
  rw [Location.reg, payload_val, RegisterLocation_value]
  norm_num at hr ⊢
  omega

theorem FpuRegisterLocation_fpu_reg (r : Nat) (hr : r < 2 ^ 59) :
    (Location.FpuRegisterLocation r).fpu_reg = r := by
  rw [Location.fpu_reg, payload_val, FpuRegisterLocation_value]
  norm_num at hr ⊢
  omega

theorem pow_and_not64_self (v : Nat) (hv : v < 64) :
    2 ^ v &&& not64 (2 ^ v) = 0 := by
  have hm : ((2 : Nat) ^ 1 - 1) <<< v = 2 ^ v := by
    rw [Nat.shiftLeft_eq]
    omega
  conv_lhs => rw [← hm]
  rw [and_not64_mask ((2 ^ 1 - 1) <<< v) v 1
    (by rw [hm]; exact Nat.pow_lt_pow_right (by norm_num) hv) (by omega), hm,
    Nat.mod_self,
    Nat.div_eq_of_lt (Nat.pow_lt_pow_right (by norm_num) (by omega))]
  simp

theorem remove_after_add_empty (v : Nat) (hv : v < 64) :
    (SmallSet.empty.Add v).Remove v = SmallSet.empty := by
  simp [SmallSet.empty, SmallSet.Add, SmallSet.Remove, ToMask_eq,
    pow_and_not64_self v hv]

theorem or_testBit_self (d r : Nat) : (d ||| 2 ^ r) ≠ 0 := by
  intro h
  have hb : (d ||| 2 ^ r).testBit r = true := by
    simp [Nat.testBit_or, Nat.testBit_two_pow_self]
  rw [h] at hb
  simp at hb

theorem and_bit_ne_zero (d r : Nat) : (d ||| 2 ^ r) &&& 2 ^ r ≠ 0 := by
  intro h
  have hb : ((d ||| 2 ^ r) &&& 2 ^ r).testBit r = true := by
    simp [Nat.testBit_and, Nat.testBit_or, Nat.testBit_two_pow_self]
  rw [h] at hb
  simp at hb

/-- C8 counterexample: adding a cpu register with an untagged representation
and removing it does not restore the initial state, because Remove never
clears the untagged mask: HasUntaggedValues stays true. -/
theorem C8_counterexample :
    ¬ ((RegisterSet.new.Add (Location.RegisterLocation 0) kUntagged).Remove
        (Location.RegisterLocation 0)).HasUntaggedValues = false := by
  decide

/-- C8 (amended): Add-then-Remove restores the fresh state for a cpu
register with the default tagged representation and for an fpu register
with any representation; for a cpu register with a non-tagged
representation the used masks return to zero but the untagged bit
persists, so HasUntaggedValues stays true.  Add is idempotent, Contains
holds after Add, and HasUntaggedValues is false on a fresh set and true
right after adding an fpu register or an untagged cpu register. -/
theorem C8_add_remove_amended :
    (∀ (r : Nat), r < 64 →
        (RegisterSet.new.Add (Location.RegisterLocation r) kTagged).Remove
          (Location.RegisterLocation r) = RegisterSet.new) ∧
    (∀ (r rep : Nat), r < 64 →
        (RegisterSet.new.Add (Location.FpuRegisterLocation r) rep).Remove
          (Location.FpuRegisterLocation r) = RegisterSet.new) ∧
    (∀ (r rep : Nat), r < 64 → rep ≠ kTagged →
        ((RegisterSet.new.Add (Location.RegisterLocation r) rep).Remove
            (Location.RegisterLocation r)).cpu_registers = SmallSet.empty ∧
        ((RegisterSet.new.Add (Location.RegisterLocation r) rep).Remove
            (Location.RegisterLocation r)).fpu_registers = SmallSet.empty ∧
        ((RegisterSet.new.Add (Location.RegisterLocation r) rep).Remove
            (Location.RegisterLocation r)).untagged_cpu_registers.data = 2 ^ r ∧
        ((RegisterSet.new.Add (Location.RegisterLocation r) rep).Remove
            (Location.RegisterLocation r)).HasUntaggedValues = true) ∧
    (∀ (rs : RegisterSet) (r rep : Nat),
        (rs.Add (Location.RegisterLocation r) rep).Add
            (Location.RegisterLocation r) rep =
          rs.Add (Location.RegisterLocation r) rep ∧
        (rs.Add (Location.FpuRegisterLocation r) rep).Add
            (Location.FpuRegisterLocation r) rep =
          rs.Add (Location.FpuRegisterLocation r) rep) ∧
    (∀ (rs : RegisterSet) (r rep : Nat),
        (rs.Add (Location.RegisterLocation r) rep).Contains
            (Location.RegisterLocation r) = some true ∧
        (rs.Add (Location.FpuRegisterLocation r) rep).Contains
            (Location.FpuRegisterLocation r) = some true) ∧
    RegisterSet.new.HasUntaggedValues = false ∧
    (∀ (rs : RegisterSet) (r rep : Nat),
        (rs.Add (Location.FpuRegisterLocation r) rep).HasUntaggedValues = true) ∧
    (∀ (rs : RegisterSet) (r rep : Nat), rep ≠ kTagged →
        (rs.Add (Location.RegisterLocation r) rep).HasUntaggedValues = true) := by
  refine ⟨?_, ?_, ?_, ?_, ?_, by decide, ?_, ?_⟩
  · intro r hr
    have hreg : (Location.RegisterLocation r).reg = r :=
      RegisterLocation_reg r (by norm_num; omega)
    simp [RegisterSet.Add, RegisterSet.Remove, RegisterLocation_IsRegister,
      RegisterLocation_not_IsFpu, RegisterSet.new, SmallSet.empty, SmallSet.Add,
      SmallSet.Remove, ToMask_eq, hreg, pow_and_not64_self r hr]
  · intro r rep hr
    have hreg : (Location.FpuRegisterLocation r).fpu_reg = r :=
      FpuRegisterLocation_fpu_reg r (by norm_num; omega)
    simp [RegisterSet.Add, RegisterSet.Remove, FpuRegisterLocation_IsFpu,
      FpuRegisterLocation_not_IsRegister, RegisterSet.new, SmallSet.empty,
      SmallSet.Add, SmallSet.Remove, ToMask_eq, hreg, pow_and_not64_self r hr]
  · intro r rep hr hrep
    have hreg : (Location.RegisterLocation r).reg = r :=
      RegisterLocation_reg r (by norm_num; omega)
    have h2 : (2 : Nat) ^ r ≠ 0 := (Nat.two_pow_pos r).ne'
    simp [RegisterSet.Add, RegisterSet.Remove, RegisterSet.MarkUntagged,
      RegisterSet.HasUntaggedValues, RegisterLocation_IsRegister,
      RegisterLocation_not_IsFpu, RegisterSet.new, SmallSet.empty, SmallSet.Add,
      SmallSet.Remove, SmallSet.IsEmpty, ToMask_eq, hreg, hrep,
      pow_and_not64_self r hr, h2]
  · intro rs r rep
    obtain ⟨⟨a⟩, ⟨b⟩, ⟨c⟩⟩ := rs
    constructor
    · by_cases hrep : rep = kTagged
      · simp [RegisterSet.Add, RegisterLocation_IsRegister,
          RegisterLocation_not_IsFpu, SmallSet.Add, hrep, Nat.or_assoc]
      · simp [RegisterSet.Add, RegisterSet.MarkUntagged,
          RegisterLocation_IsRegister, RegisterLocation_not_IsFpu, SmallSet.Add,
          hrep, Nat.or_assoc]
    · simp [RegisterSet.Add, FpuRegisterLocation_IsFpu,
        FpuRegisterLocation_not_IsRegister, SmallSet.Add, Nat.or_assoc]
  · intro rs r rep
    obtain ⟨⟨a⟩, ⟨b⟩, ⟨c⟩⟩ := rs
    constructor
    · by_cases hrep : rep = kTagged
      · simp [RegisterSet.Contains, RegisterSet.ContainsRegister, RegisterSet.Add,
          RegisterLocation_IsRegister, RegisterLocation_not_IsFpu, SmallSet.Add,
          SmallSet.Contains, ToMask_eq, hrep]
        exact and_bit_ne_zero a _
      · simp [RegisterSet.Contains, RegisterSet.ContainsRegister, RegisterSet.Add,
          RegisterSet.MarkUntagged, RegisterLocation_IsRegister,
          RegisterLocation_not_IsFpu, SmallSet.Add, SmallSet.Contains, ToMask_eq,
          hrep]
        exact and_bit_ne_zero a _
    · simp [RegisterSet.Contains, RegisterSet.ContainsFpuRegister, RegisterSet.Add,
        FpuRegisterLocation_IsFpu, FpuRegisterLocation_not_IsRegister,
        SmallSet.Add, SmallSet.Contains, ToMask_eq]
      exact and_bit_ne_zero c _
  · intro rs r rep
    obtain ⟨⟨a⟩, ⟨b⟩, ⟨c⟩⟩ := rs
    simp [RegisterSet.Add, RegisterSet.HasUntaggedValues, FpuRegisterLocation_IsFpu,
      FpuRegisterLocation_not_IsRegister, SmallSet.Add, SmallSet.IsEmpty,
      ToMask_eq]
    exact Or.inr (or_testBit_self c _)
  · intro rs r rep hrep
    obtain ⟨⟨a⟩, ⟨b⟩, ⟨c⟩⟩ := rs
    simp [RegisterSet.Add, RegisterSet.MarkUntagged, RegisterSet.HasUntaggedValues,
      RegisterLocation_IsRegister, RegisterLocation_not_IsFpu, SmallSet.Add,
      SmallSet.IsEmpty, ToMask_eq, hrep]
    exact Or.inl (or_testBit_self b _)

/-- C8 witness: concrete instances of the amended Add / Remove algebra. -/
theorem C8_witness :
    ((RegisterSet.new.Add (Location.RegisterLocation 3) kTagged).Remove
        (Location.RegisterLocation 3) = RegisterSet.new) ∧
    ((RegisterSet.new.Add (Location.FpuRegisterLocation 3) kUnboxedDouble).Remove
        (Location.FpuRegisterLocation 3) = RegisterSet.new) ∧
    ((RegisterSet.new.Add (Location.RegisterLocation 3) kUntagged).Remove
        (Location.RegisterLocation 3)).HasUntaggedValues = true ∧
    ((RegisterSet.new.Add (Location.RegisterLocation 3) kTagged).Add
        (Location.RegisterLocation 3) kTagged =
      RegisterSet.new.Add (Location.RegisterLocation 3) kTagged) ∧
    (RegisterSet.new.Add (Location.RegisterLocation 3) kTagged).Contains
        (Location.RegisterLocation 3) = some true :=
  ⟨C8_add_remove_amended.1 3 (by decide),
    C8_add_remove_amended.2.1 3 kUnboxedDouble (by decide),
    (C8_add_remove_amended.2.2.1 3 kUntagged (by decide) (by decide)).2.2.2,
    (C8_add_remove_amended.2.2.2.1 RegisterSet.new 3 kTagged).1,
    (C8_add_remove_amended.2.2.2.2.1 RegisterSet.new 3 kTagged).1⟩

/-! FrameRebase: field-update computations on stack-slot words. -/

theorem slotVal_lt (k b e : Nat) (hk : k < 32) (hb : b < 64) (he : e < 2 ^ 53) :
    k + 32 * (b + 64 * e) < 2 ^ 64 := by
  norm_num at he ⊢
  omega

theorem set_base_reg_slot (k b e nb : Nat) (hk : k < 32) (hb : b < 64)
    (he : e < 2 ^ 53) (hnb : nb < 64) :
    (⟨k + 32 * (b + 64 * e)⟩ : Location).set_base_reg nb =
      some ⟨k + 32 * (nb + 64 * e)⟩ := by
  rw [Location.set_base_reg,
    if_pos (by rw [kBitsForBaseReg]; norm_num; omega),
    slotVal_payload k b e hk hb he]
  have horig : b + 64 * e < 2 ^ 64 := by
    norm_num at he ⊢
    omega
  have hsb : StackSlotBaseField.update nb (b + 64 * e) = nb + 64 * e := by
    rw [StackSlotBaseField.update, kBitsForBaseReg,
      bitFieldUpdate_eq 0 6 nb (b + 64 * e) (by norm_num; omega) horig
        (by norm_num)]
    norm_num
    omega
  rw [hsb, PayloadField.update,
    show kPayloadBitsPos = 5 from rfl, show kPayloadBitsSize = 59 from by
      rw [kPayloadBitsSize, kPayloadBitsPos, kKindBitsPos, kKindBitsSize,
        kBitsPerWord],
    bitFieldUpdate_eq 5 59 (nb + 64 * e) (k + 32 * (b + 64 * e))
      (by norm_num at he ⊢; omega) (slotVal_lt k b e hk hb he) (by norm_num)]
  congr 1
  norm_num at he ⊢
  omega

theorem set_stack_index_slot (k b e : Nat) (i : Int) (hk : k < 32) (hb : b < 64)
    (he : e < 2 ^ 53) (hlo : -kStackIndexBias ≤ i) (hhi : i < kStackIndexBias) :
    (⟨k + 32 * (b + 64 * e)⟩ : Location).set_stack_index i =
      some ⟨k + 32 * (b + 64 * (kStackIndexBias + i).toNat)⟩ := by
  rw [Location.set_stack_index, EncodeStackIndex_some i hlo hhi, Option.map_some',
    slotVal_payload k b e hk hb he]
  have hE : (kStackIndexBias + i).toNat < 2 ^ 53 := encIdx_lt i hhi
  have horig : b + 64 * e < 2 ^ 64 := by
    norm_num at he ⊢
    omega
  have hsi : StackIndexField.update (kStackIndexBias + i).toNat (b + 64 * e) =
      b + 64 * (kStackIndexBias + i).toNat := by
    rw [StackIndexField.update, kBitsForBaseReg,
      show kBitsForStackIndex = 53 from by
        rw [kBitsForStackIndex, kPayloadBitsSize, kPayloadBitsPos, kKindBitsPos,
          kKindBitsSize, kBitsPerWord, kBitsForBaseReg],
      bitFieldUpdate_eq 6 53 (kStackIndexBias + i).toNat (b + 64 * e) hE horig
        (by norm_num)]
    norm_num at he hE ⊢
    omega
  rw [hsi, PayloadField.update,
    show kPayloadBitsPos = 5 from rfl, show kPayloadBitsSize = 59 from by
      rw [kPayloadBitsSize, kPayloadBitsPos, kKindBitsPos, kKindBitsSize,
        kBitsPerWord],
    bitFieldUpdate_eq 5 59 (b + 64 * (kStackIndexBias + i).toNat)
      (k + 32 * (b + 64 * e)) (by norm_num at hE ⊢; omega)
      (slotVal_lt k b e hk hb he) (by norm_num)]
  congr 1
  norm_num at he hE ⊢
  omega

theorem rebase_slot (kk : Nat) (hkk : kk = 4 ∨ kk = 7 ∨ kk = 11) (fuel : Nat)
    (fr : FrameRebase) (z : Zone) (o : Int) (b : Nat) (hb : b < 64)
    (hnb : fr.new_base < 64) (hlo : -kStackIndexBias ≤ o)
    (hhi : o < kStackIndexBias) (hmatch : b = fr.old_base)
    (hlo2 : -kStackIndexBias ≤ o + fr.stack_delta)
    (hhi2 : o + fr.stack_delta < kStackIndexBias) :
    FrameRebase.RebaseF (fuel + 1) fr z
      (Location.ofKindPayload kk (StackSlotBaseField.encode b |||
        StackIndexField.encode (kStackIndexBias + o).toNat)) =
      some (z, Location.ofKindPayload kk
        (StackSlotBaseField.encode fr.new_base |||
          StackIndexField.encode
            (kStackIndexBias + (o + fr.stack_delta)).toNat)) := by
  have hk : kk < 32 := by omega
  have hE : (kStackIndexBias + o).toNat < 2 ^ 53 := encIdx_lt o hhi
  have hl : Location.ofKindPayload kk
      (StackSlotBaseField.encode b |||
        StackIndexField.encode (kStackIndexBias + o).toNat) =
      (⟨kk + 32 * (b + 64 * (kStackIndexBias + o).toNat)⟩ : Location) := by
    rw [← slot_value kk hk o b hb]
  have hr : Location.ofKindPayload kk
      (StackSlotBaseField.encode fr.new_base |||
        StackIndexField.encode (kStackIndexBias + (o + fr.stack_delta)).toNat) =
      (⟨kk + 32 * (fr.new_base +
        64 * (kStackIndexBias + (o + fr.stack_delta)).toNat)⟩ : Location) := by
    rw [← slot_value kk hk (o + fr.stack_delta) fr.new_base hnb]
  rw [hl, hr]
  have hvmod : (kk + 32 * (b + 64 * (kStackIndexBias + o).toNat)) % 32 = kk := by
    omega
  have hpair : (⟨kk + 32 * (b + 64 * (kStackIndexBias + o).toNat)⟩ :
      Location).IsPairLocation = false := by
    refine Bool.eq_false_iff.mpr (fun hp => ?_)
    have := (IsPairLocation_iff _).mp hp
    simp only at this
    omega
  have hstack : (⟨kk + 32 * (b + 64 * (kStackIndexBias + o).toNat)⟩ :
      Location).HasStackIndex = true := by
    rw [HasStackIndex_iff]
    show (kk + 32 * (b + 64 * (kStackIndexBias + o).toNat)) % 32 = 4 ∨
      (kk + 32 * (b + 64 * (kStackIndexBias + o).toNat)) % 32 = 7 ∨
      (kk + 32 * (b + 64 * (kStackIndexBias + o).toNat)) % 32 = 11
    omega
  have hbase : (⟨kk + 32 * (b + 64 * (kStackIndexBias + o).toNat)⟩ :
      Location).base_reg = fr.old_base := by
    rw [slotVal_base_reg kk b _ hk hb hE, hmatch]
  rw [FrameRebase.RebaseF, hpair]
  simp only [Bool.false_eq_true, if_false, hstack, hbase, Bool.not_true,
    Bool.false_or, ne_eq, not_true_eq_false, decide_False, if_false]
  rw [set_base_reg_slot kk b _ fr.new_base hk hb hE hnb]
  show (match (⟨kk + 32 * (fr.new_base + 64 * (kStackIndexBias + o).toNat)⟩ :
        Location).set_stack_index
      ((⟨kk + 32 * (fr.new_base + 64 * (kStackIndexBias + o).toNat)⟩ :
        Location).stack_index + fr.stack_delta) with
    | none => none
    | some l2 => some (z, l2)) =
    some (z, ⟨kk + 32 * (fr.new_base +
      64 * (kStackIndexBias + (o + fr.stack_delta)).toNat)⟩)
  rw [slotVal_stack_index kk fr.new_base _ hk hnb hE, encIdx_int o hlo]
  have hidx : kStackIndexBias + o - kStackIndexBias + fr.stack_delta =
      o + fr.stack_delta := by omega
  rw [hidx, set_stack_index_slot kk fr.new_base _ (o + fr.stack_delta) hk hnb hE
    hlo2 hhi2]

theorem IsStackSlot_iff (l : Location) :
    l.IsStackSlot = true ↔ l.value % 32 = 4 := by
  rw [Location.IsStackSlot, kind_val]
  simp [kStackSlot]

theorem IsDoubleStackSlot_iff (l : Location) :
    l.IsDoubleStackSlot = true ↔ l.value % 32 = 7 := by
  rw [Location.IsDoubleStackSlot, kind_val]
  simp [kDoubleStackSlot]

theorem IsQuadStackSlot_iff (l : Location) :
    l.IsQuadStackSlot = true ↔ l.value % 32 = 11 := by
  rw [Location.IsQuadStackSlot, kind_val]
  simp [kQuadStackSlot]

theorem rebase_unchanged_nonstack (fuel : Nat) (fr : FrameRebase) (z : Zone)
    (l : Location) (hp : l.IsPairLocation = false)
    (hs : l.HasStackIndex = false) :
    FrameRebase.RebaseF (fuel + 1) fr z l = some (z, l) := by
  rw [FrameRebase.RebaseF, hp]
  simp [hs]

theorem rebase_unchanged_otherbase (fuel : Nat) (fr : FrameRebase) (z : Zone)
    (l : Location) (hsi : l.HasStackIndex = true)
    (hb : l.base_reg ≠ fr.old_base) :
    FrameRebase.RebaseF (fuel + 1) fr z l = some (z, l) := by
  have hp : l.IsPairLocation = false := by
    refine Bool.eq_false_iff.mpr (fun hpp => ?_)
    have h2 := (IsPairLocation_iff l).mp hpp
    rcases (HasStackIndex_iff l).mp hsi with h | h | h <;> omega
  rw [FrameRebase.RebaseF, hp]
  simp [hsi, hb]

theorem Pair_ref_value (z : Zone) (x y : Location) :
    (Location.Pair z x y).2.value = 8 * (z.pairs.length + 1) + 2 := by
  show (⟨pairAddress z.pairs.length ||| kPairLocationTag⟩ : Location).value = _
  rw [pairRef_value _ (pairAddress_mod _), pairAddress, kWordSize]

theorem Pair_isPair (z : Zone) (x y : Location) :
    (Location.Pair z x y).2.IsPairLocation = true := by
  rw [IsPairLocation_iff, Pair_ref_value]
  omega

theorem Pair_zone_length (z : Zone) (x y : Location) :
    (Location.Pair z x y).1.pairs.length = z.pairs.length + 1 := by
  show (z.pairs ++ [(⟨x, y⟩ : PairLocation)]).length = z.pairs.length + 1
  simp

/-- C4: Rebase rewrites a stack-relative location with matching base to the
same kind of slot with the new base and the offset shifted by stack_delta;
it leaves stack locations with a different base and all non-stack,
non-pair locations unchanged (Equals true); and on a pair reference it
returns a new pair whose components are the rebased components.  E.g.
StackSlot(-3, FP) under FrameRebase(FP, SP, 10) becomes StackSlot(7, SP). -/
theorem C4_frame_rebase :
    (∀ (fr : FrameRebase) (z : Zone) (o : Int) (b : Nat) (l l' : Location),
        b < 64 → fr.new_base < 64 → b = fr.old_base →
        Location.StackSlot o b = some l →
        Location.StackSlot (o + fr.stack_delta) fr.new_base = some l' →
        FrameRebase.RebaseF 1 fr z l = some (z, l') ∧
          l'.stack_index = o + fr.stack_delta ∧ l'.base_reg = fr.new_base ∧
          l'.IsStackSlot = true) ∧
    (∀ (fr : FrameRebase) (z : Zone) (o : Int) (b : Nat) (l l' : Location),
        b < 64 → fr.new_base < 64 → b = fr.old_base →
        Location.DoubleStackSlot o b = some l →
        Location.DoubleStackSlot (o + fr.stack_delta) fr.new_base = some l' →
        FrameRebase.RebaseF 1 fr z l = some (z, l') ∧
          l'.stack_index = o + fr.stack_delta ∧ l'.base_reg = fr.new_base ∧
          l'.IsDoubleStackSlot = true) ∧
    (∀ (fr : FrameRebase) (z : Zone) (o : Int) (b : Nat) (l l' : Location),
        b < 64 → fr.new_base < 64 → b = fr.old_base →
        Location.QuadStackSlot o b = some l →
        Location.QuadStackSlot (o + fr.stack_delta) fr.new_base = some l' →
        FrameRebase.RebaseF 1 fr z l = some (z, l') ∧
          l'.stack_index = o + fr.stack_delta ∧ l'.base_reg = fr.new_base ∧
          l'.IsQuadStackSlot = true) ∧
    (∀ (fuel : Nat) (fr : FrameRebase) (z : Zone) (l : Location),
        l.HasStackIndex = true → l.base_reg ≠ fr.old_base →
        FrameRebase.RebaseF (fuel + 1) fr z l = some (z, l) ∧
          l.Equals l = true) ∧
    (∀ (fuel : Nat) (fr : FrameRebase) (z : Zone) (l : Location),
        l.IsPairLocation = false → l.HasStackIndex = false →
        FrameRebase.RebaseF (fuel + 1) fr z l = some (z, l) ∧
          l.Equals l = true) ∧
    (∀ (fuel : Nat) (fr : FrameRebase) (z : Zone) (x y x' y' : Location),
        x.IsPairLocation = false → y.IsPairLocation = false →
        z.pairs.length < 2 ^ 59 →
        FrameRebase.RebaseF fuel fr (Location.Pair z x y).1 x =
          some ((Location.Pair z x y).1, x') →
        FrameRebase.RebaseF fuel fr (Location.Pair z x y).1 y =
          some ((Location.Pair z x y).1, y') →
        FrameRebase.RebaseF (fuel + 1) fr (Location.Pair z x y).1
            (Location.Pair z x y).2 =
          some (Location.Pair (Location.Pair z x y).1 x' y') ∧
        (Location.Pair (Location.Pair z x y).1 x' y').2.IsPairLocation = true ∧
        Location.Component (Location.Pair (Location.Pair z x y).1 x' y').1
            (Location.Pair (Location.Pair z x y).1 x' y').2 0 = some x' ∧
        Location.Component (Location.Pair (Location.Pair z x y).1 x' y').1
            (Location.Pair (Location.Pair z x y).1 x' y').2 1 = some y') := by
  have hslot : ∀ (kk : Nat), kk = 4 ∨ kk = 7 ∨ kk = 11 →
      ∀ (fr : FrameRebase) (z : Zone) (o : Int) (b : Nat) (l l' : Location),
      b < 64 → fr.new_base < 64 → b = fr.old_base →
      ((Location.EncodeStackIndex o).map fun enc =>
        Location.ofKindPayload kk (StackSlotBaseField.encode b |||
          StackIndexField.encode enc)) = some l →
      ((Location.EncodeStackIndex (o + fr.stack_delta)).map fun enc =>
        Location.ofKindPayload kk (StackSlotBaseField.encode fr.new_base |||
          StackIndexField.encode enc)) = some l' →
      FrameRebase.RebaseF 1 fr z l = some (z, l') ∧
        l'.stack_index = o + fr.stack_delta ∧ l'.base_reg = fr.new_base ∧
        l'.value % 32 = kk := by
    intro kk hkk fr z o b l l' hb hnb hmatch hl hl'
    have hk : kk < 32 := by omega
    by_cases hrange : -kStackIndexBias ≤ o ∧ o < kStackIndexBias
    · by_cases hrange2 : -kStackIndexBias ≤ o + fr.stack_delta ∧
          o + fr.stack_delta < kStackIndexBias
      · rw [EncodeStackIndex_some o hrange.1 hrange.2, Option.map_some',
          Option.some.injEq] at hl
        rw [EncodeStackIndex_some _ hrange2.1 hrange2.2, Option.map_some',
          Option.some.injEq] at hl'
        subst hl
        subst hl'
        refine ⟨?_, ?_, ?_, ?_⟩
        · exact rebase_slot kk hkk 0 fr z o b hb hnb hrange.1 hrange.2 hmatch
            hrange2.1 hrange2.2
        · exact (slotCtor_fields kk hk (o + fr.stack_delta) fr.new_base hnb
            hrange2.1 hrange2.2).1
        · exact (slotCtor_fields kk hk (o + fr.stack_delta) fr.new_base hnb
            hrange2.1 hrange2.2).2
        · rw [slot_value kk hk (o + fr.stack_delta) fr.new_base hnb]
          omega
      · rw [EncodeStackIndex_none _ (by omega)] at hl'
        exact Option.noConfusion hl'
    · rw [EncodeStackIndex_none o (by omega)] at hl
      exact Option.noConfusion hl
  refine ⟨?_, ?_, ?_, ?_, ?_, ?_⟩
  · intro fr z o b l l' hb hnb hmatch hl hl'
    obtain ⟨h1, h2, h3, h4⟩ := hslot kStackSlot (by norm_num [kStackSlot]) fr z
      o b l l' hb hnb hmatch hl hl'
    exact ⟨h1, h2, h3, (IsStackSlot_iff l').mpr (by rw [h4]; rfl)⟩
  · intro fr z o b l l' hb hnb hmatch hl hl'
    obtain ⟨h1, h2, h3, h4⟩ := hslot kDoubleStackSlot
      (by norm_num [kDoubleStackSlot]) fr z o b l l' hb hnb hmatch hl hl'
    exact ⟨h1, h2, h3, (IsDoubleStackSlot_iff l').mpr (by rw [h4]; rfl)⟩
  · intro fr z o b l l' hb hnb hmatch hl hl'
    obtain ⟨h1, h2, h3, h4⟩ := hslot kQuadStackSlot
      (by norm_num [kQuadStackSlot]) fr z o b l l' hb hnb hmatch hl hl'
    exact ⟨h1, h2, h3, (IsQuadStackSlot_iff l').mpr (by rw [h4]; rfl)⟩
  · intro fuel fr z l hsi hb
    exact ⟨rebase_unchanged_otherbase fuel fr z l hsi hb,
      by simp [Location.Equals]⟩
  · intro fuel fr z l hp hs
    exact ⟨rebase_unchanged_nonstack fuel fr z l hp hs,
      by simp [Location.Equals]⟩
  · intro fuel fr z x y x' y' hx hy hlen hrx hry
    have hap : Location.AsPairLocation (Location.Pair z x y).1
        (Location.Pair z x y).2 = some ⟨x, y⟩ :=
      AsPair_of_Pair z x y (by norm_num at hlen ⊢; omega)
    have hc0 : Location.Component (Location.Pair z x y).1
        (Location.Pair z x y).2 0 = some x := by
      rw [Location.Component, hap]
      rfl
    have hc1 : Location.Component (Location.Pair z x y).1
        (Location.Pair z x y).2 1 = some y := by
      rw [Location.Component, hap]
      rfl
    have hap' : Location.AsPairLocation
        (Location.Pair (Location.Pair z x y).1 x' y').1
        (Location.Pair (Location.Pair z x y).1 x' y').2 = some ⟨x', y'⟩ := by
      refine AsPair_of_Pair (Location.Pair z x y).1 x' y' ?_
      rw [Pair_zone_length]
      norm_num at hlen ⊢
      omega
    refine ⟨?_, Pair_isPair _ _ _, by rw [Location.Component, hap']; rfl,
      by rw [Location.Component, hap']; rfl⟩
    rw [FrameRebase.RebaseF]
    simp only [Pair_isPair z x y, if_true, hc0, hc1, hrx, hry]

/-- C4 witness: StackSlot(-3, reg 5) under FrameRebase(5, 6, 10) rebases to
StackSlot(7, reg 6), and a register location passes through unchanged. -/
theorem C4_witness :
    (FrameRebase.RebaseF 1 ⟨5, 6, 10⟩ ⟨[]⟩
        ⟨4 + 32 * (5 + 64 * (2 ^ 52 - 3))⟩ =
        some (⟨[]⟩, ⟨4 + 32 * (6 + 64 * (2 ^ 52 + 7))⟩) ∧
      (⟨4 + 32 * (6 + 64 * (2 ^ 52 + 7))⟩ : Location).stack_index = -3 + 10 ∧
      (⟨4 + 32 * (6 + 64 * (2 ^ 52 + 7))⟩ : Location).base_reg = 6 ∧
      (⟨4 + 32 * (6 + 64 * (2 ^ 52 + 7))⟩ : Location).IsStackSlot = true) ∧
    (FrameRebase.RebaseF 1 ⟨5, 6, 10⟩ ⟨[]⟩ (Location.RegisterLocation 0) =
        some (⟨[]⟩, Location.RegisterLocation 0) ∧
      (Location.RegisterLocation 0).Equals (Location.RegisterLocation 0) = true) :=
  ⟨C4_frame_rebase.1 ⟨5, 6, 10⟩ ⟨[]⟩ (-3) 5
      ⟨4 + 32 * (5 + 64 * (2 ^ 52 - 3))⟩ ⟨4 + 32 * (6 + 64 * (2 ^ 52 + 7))⟩
      (by decide) (by decide) (by decide) (by decide) (by decide),
    C4_frame_rebase.2.2.2.2.1 0 ⟨5, 6, 10⟩ ⟨[]⟩ (Location.RegisterLocation 0)
      (by decide) (by decide)⟩

end Dart
